import Mathlib

/-!
Verification of the client-side data synchronization layer of the
crowd-management dashboard (Angular).

Shallow embedding of two source units, both found in
src/src/app/core/interceptors/cache.interceptor.ts:

* the HTTP response cache (module-level `cache` / `bodyCache` maps,
  `clearCacheForSite`, `cleanupCacheIfNeeded`, `getCacheKey`, and the
  `CacheInterceptor` request pipeline), modelled in namespace CacheModel;
* the `SocketService` (socket lifecycle, `initializeSocket`, `reconnect`,
  `listen`, `disconnect`, and the socket.io event handlers), modelled in
  namespace SocketModel.

Conventions of the embedding:
* JavaScript `Map` objects are modelled as insertion-ordered association
  lists with unique keys (`mapGet` / `mapSet` / `mapDelete` below);
  `Map.set` on an existing key updates the value in place, otherwise it
  appends, exactly as a JS Map iterates in insertion order.
* `Date.now()` timestamps are natural numbers supplied explicitly to each
  operation.  All timestamp comparisons in the source compare a current
  time against an earlier stored time; truncated subtraction on Nat agrees
  with JS number subtraction on every comparison the source performs.
* A request body is opaque to the cache; `Req.body = some s` models a
  truthy body whose `JSON.stringify` is the string `s`, and `none` models
  an absent (falsy) body, for which the source skips the body block.
* `Array.prototype.sort` with comparator `a[1].timestamp - b[1].timestamp`
  is a stable ascending sort; it is modelled by `List.insertionSort` with
  `(· ≤ ·)` on timestamps, which is stable and therefore produces the
  same list as any stable ascending sort.
-/


namespace CacheModel

/-- CACHE_TTL from cache.interceptor.ts line 12: 2 minute TTL. -/
def CACHE_TTL : Nat := 120000

/-- MAX_CACHE_SIZE from line 13. -/
def MAX_CACHE_SIZE : Nat := 100

/-- CACHE_CLEANUP_INTERVAL from line 14: cleanup at most every 60 s. -/
def CACHE_CLEANUP_INTERVAL : Nat := 60000

/-- JS Map lookup (Map.get). -/
def mapGet {α : Type} (m : List (String × α)) (k : String) : Option α :=
  match m with
  | [] => none
  | (k1, v) :: rest => if k1 = k then some v else mapGet rest k

/-- JS Map insertion (Map.set): update in place, else append (insertion order). -/
def mapSet {α : Type} (m : List (String × α)) (k : String) (v : α) : List (String × α) :=
  match m with
  | [] => [(k, v)]
  | (k1, v1) :: rest => if k1 = k then (k1, v) :: rest else (k1, v1) :: mapSet rest k v

/-- JS Map deletion (Map.delete); keys are unique so removing every pair with
this key removes exactly the one binding. -/
def mapDelete {α : Type} (m : List (String × α)) (k : String) : List (String × α) :=
  m.filter (fun kv => !(kv.1 == k))

/-- Substring test, modelling JS String.prototype.includes. -/
def strContains (s pat : String) : Bool :=
  s.data.tails.any (fun t => pat.data.isPrefixOf t)

/-- CacheEntry interface (lines 6-9): cached response and insertion timestamp. -/
structure CacheEntry where
  response : String
  timestamp : Nat
deriving DecidableEq, Repr

/-- The module-level mutable state of cache.interceptor.ts: the response
cache (line 11), the stringified-body cache (line 18) and the cleanup
throttle timestamp (line 15). -/
structure CacheState where
  cache : List (String × CacheEntry)
  bodyCache : List (String × String)
  lastCleanupTime : Nat
deriving DecidableEq, Repr

/-- Module state right after load: both maps empty, lastCleanupTime set to
the load time (line 15: Date.now()). -/
def initState (loadTime : Nat) : CacheState :=
  ⟨[], [], loadTime⟩

/-- An HTTP request as the interceptor sees it. -/
structure Req where
  method : String
  url : String
  body : Option String
deriving DecidableEq, Repr

/-- clearCacheForSite (lines 21-36).  JS truthiness: passing the empty
string is falsy and clears everything, like passing no argument. -/
def clearCacheForSite (siteId : Option String) (st : CacheState) : CacheState :=
  match siteId with
  | some s =>
    if s = "" then { st with cache := [], bodyCache := [] }
    else
      let keysToDelete := (st.cache.filter (fun kv => strContains kv.1 (":" ++ s ++ ":"))).map Prod.fst
      { st with cache := keysToDelete.foldl mapDelete st.cache }
  | none => { st with cache := [], bodyCache := [] }

/-- cleanupCacheIfNeeded (lines 39-69): throttled to one run per
CACHE_CLEANUP_INTERVAL; removes expired entries, then if at least
MAX_CACHE_SIZE entries remain removes the MAX_CACHE_SIZE/2
oldest-by-timestamp entries (stable sort, line 58-61), then trims the
body cache to its last 50 entries (lines 65-68). -/
def cleanupCacheIfNeeded (now : Nat) (st : CacheState) : CacheState :=
  if now - st.lastCleanupTime < CACHE_CLEANUP_INTERVAL then st
  else
    let expiredKeys := (st.cache.filter (fun kv => now - kv.2.timestamp > CACHE_TTL)).map Prod.fst
    let cache1 := expiredKeys.foldl mapDelete st.cache
    let cache2 :=
      if cache1.length ≥ MAX_CACHE_SIZE then
        let sortedEntries := cache1.insertionSort (fun a b => a.2.timestamp ≤ b.2.timestamp)
        let toRemove := (sortedEntries.take (MAX_CACHE_SIZE / 2)).map Prod.fst
        toRemove.foldl mapDelete cache1
      else cache1
    let bodyCache2 :=
      if st.bodyCache.length > 50 then
        let bodyKeys := st.bodyCache.map Prod.fst
        (bodyKeys.take (bodyKeys.length - 50)).foldl mapDelete st.bodyCache
      else st.bodyCache
    { cache := cache2, bodyCache := bodyCache2, lastCleanupTime := now }

/-- getCacheKey (lines 72-83).  Returns the key and the (possibly mutated)
module state: the body string is the cached stringification for
method:url when present (JS || also skips an empty cached string), else
this request body; a missing bodyCache entry is inserted. -/
def getCacheKey (req : Req) (siteId : String) (st : CacheState) : String × CacheState :=
  match req.body with
  | none => (req.method ++ ":" ++ req.url ++ ":" ++ siteId ++ ":", st)
  | some b =>
    let bodyKey := req.method ++ ":" ++ req.url
    let bodyStr :=
      match mapGet st.bodyCache bodyKey with
      | some c => if c = "" then b else c
      | none => b
    let st1 :=
      if (mapGet st.bodyCache bodyKey).isSome then st
      else { st with bodyCache := mapSet st.bodyCache bodyKey bodyStr }
    (req.method ++ ":" ++ req.url ++ ":" ++ siteId ++ ":" ++ bodyStr, st1)

/-- isAnalyticsRequest / isSitesRequest (lines 87-88). -/
def isCacheableUrl (url : String) : Bool :=
  strContains url "/api/analytics/" || strContains url "/api/sites"

/-- Result of delegating to the transport (next(req)): an HttpResponse or
an error. -/
inductive Transport where
  | success (resp : String)
  | failure (err : String)
deriving DecidableEq, Repr

instance : DecidableEq (Except String String) := fun x y =>
  match x, y with
  | .ok a, .ok b =>
    if h : a = b then isTrue (congrArg Except.ok h)
    else isFalse (fun hh => h (Except.ok.inj hh))
  | .ok _, .error _ => isFalse (fun hh => Except.noConfusion hh)
  | .error _, .ok _ => isFalse (fun hh => Except.noConfusion hh)
  | .error a, .error b =>
    if h : a = b then isTrue (congrArg Except.error h)
    else isFalse (fun hh => h (Except.error.inj hh))

/-- What one interceptor invocation produces: the caller-visible outcome,
whether the transport was called, and the module state afterwards. -/
structure StepResult where
  outcome : Except String String
  usedTransport : Bool
  state : CacheState
deriving DecidableEq, Repr

/-- CacheInterceptor (lines 85-146) for one request, at one instant `now`
(the synchronous schedule: the transport result arrives in the same tick).
Non-cacheable URLs pass through untouched (lines 90-92).  Otherwise the
key is computed (line 99), a fresh entry is served from the cache with no
transport call (lines 102-104), and on a miss the cache is cleaned up
(line 107) and the transport result is either stored with the current
timestamp (lines 112-117) or the error is rethrown unchanged with nothing
stored (lines 119-144). -/
def interceptorStep (req : Req) (siteId : String) (now : Nat) (tr : Transport) (st : CacheState) : StepResult :=
  if isCacheableUrl req.url = false then
    match tr with
    | .success r => ⟨.ok r, true, st⟩
    | .failure e => ⟨.error e, true, st⟩
  else
    let kp := getCacheKey req siteId st
    let hit : Option String :=
      match mapGet kp.2.cache kp.1 with
      | some c => if now - c.timestamp < CACHE_TTL then some c.response else none
      | none => none
    match hit with
    | some r => ⟨.ok r, false, kp.2⟩
    | none =>
      let st2 := cleanupCacheIfNeeded now kp.2
      match tr with
      | .success r =>
        ⟨.ok r, true, ⟨mapSet st2.cache kp.1 ⟨r, now⟩, st2.bodyCache, st2.lastCleanupTime⟩⟩
      | .failure e => ⟨.error e, true, st2⟩

/-- One request of a trace: the request, the site id the AuthService
returns at that moment, the time, and how the transport answers. -/
structure CReq where
  req : Req
  siteId : String
  now : Nat
  tr : Transport
deriving DecidableEq, Repr

/-- Run a sequence of intercepted requests, threading the module state. -/
def runCache (st : CacheState) (steps : List CReq) : CacheState :=
  steps.foldl (fun s c => (interceptorStep c.req c.siteId c.now c.tr s).state) st

/-- The shape every key built by getCacheKey has: the four components of the
fingerprint joined with a colon (line 82 of the source). -/
def keyOf (method url siteId bodyStr : String) : String :=
  method ++ ":" ++ url ++ ":" ++ siteId ++ ":" ++ bodyStr

/-- The body string getCacheKey resolves for a request in a given state:
the cached stringification for method:url when present and nonempty,
otherwise the stringification of this request body (line 77). -/
def resolvedBody (req : Req) (st : CacheState) : String :=
  match req.body with
  | none => ""
  | some b =>
    match mapGet st.bodyCache (req.method ++ ":" ++ req.url) with
    | some c => if c = "" then b else c
    | none => b

/-- A string with no colon; fingerprint components of this form are parsed
back unambiguously from the joined key. -/
def colonFree (s : String) : Prop := (':' : Char) ∉ s.data

instance (s : String) : Decidable (colonFree s) := by
  unfold colonFree; infer_instance

/-- Well-formedness of the module state: both JS Maps have unique keys. -/
def WFCache (st : CacheState) : Prop :=
  (st.cache.map Prod.fst).Nodup ∧ (st.bodyCache.map Prod.fst).Nodup

instance (st : CacheState) : Decidable (WFCache st) := by
  unfold WFCache; infer_instance

end CacheModel

namespace CacheModel

/- ------------------------------------------------------------------ -/
/- Concrete witness states and traces                                  -/
/- ------------------------------------------------------------------ -/

/-- 101 distinct analytics requests, all at time 0 (inside one cleanup
interval), each answered successfully: 101 distinct cache insertions. -/
def c1Trace : List CReq :=
  (List.range 101).map
    (fun i => ⟨⟨"GET", Nat.repr i ++ "/api/analytics/u", none⟩, "s", 0, .success "r"⟩)

/-- The fingerprinted request whose freshness C4 tracks. -/
def reqF : Req := ⟨"GET", "f/api/analytics/u", none⟩

/-- put(F, V) at time 0, followed by 99 puts of other fingerprints at
time 0: the cache then holds 100 entries, F the oldest-inserted. -/
def fillTrace : List CReq :=
  ⟨reqF, "s", 0, .success "V"⟩ ::
    (List.range 99).map
      (fun i => ⟨⟨"GET", Nat.repr i ++ "/api/analytics/u", none⟩, "s", 0, .success "r"⟩)

/-- A miss for a fresh fingerprint at time 60000: the cleanup interval has
elapsed, so cleanupCacheIfNeeded runs before the transport is consulted. -/
def evictStep : CReq := ⟨⟨"GET", "g/api/analytics/u", none⟩, "s", 60000, .success "rg"⟩

/-- A state holding one fresh entry, for the freshness witness. -/
def stW : CacheState :=
  (interceptorStep ⟨"GET", "/api/analytics/w", none⟩ "s" 0 (.success "V") (initState 0)).state

/-- One successful put under tenant y, for a URL that contains a colon. -/
def st3 : CacheState :=
  (interceptorStep ⟨"GET", "/api/analytics/x:siteB", none⟩ "y" 0
    (.success "SECRET") (initState 0)).state

/-- One successful put under tenant ab. -/
def st9 : CacheState :=
  (interceptorStep ⟨"GET", "/api/analytics/u", none⟩ "ab" 0
    (.success "VAL") (initState 0)).state

/-- One put under tenant siteB at t=0 and one under siteA at t=1. -/
def st9B : CacheState :=
  runCache (initState 0)
    [⟨⟨"GET", "/api/analytics/u", none⟩, "siteB", 0, .success "VB"⟩,
     ⟨⟨"GET", "/api/analytics/v", none⟩, "siteA", 1, .success "VA"⟩]

end CacheModel

namespace SocketModel

/-- The view of AuthService the SocketService reads: getToken() and
isTokenExpired(). -/
structure Auth where
  token : Option String
  expired : Bool
deriving DecidableEq, Repr

/-- One RxJS Subject from the eventSubjects map, with the subscriptions
taken on the shared observables listen returns.  closed is set by
complete(); an RxJS subject delivers nothing after completion. -/
structure Subject where
  id : Nat
  closed : Bool
  subs : List Nat
deriving DecidableEq, Repr

/-- One socket.io Socket object: its physical identity, the connected
flag, the business-event listeners installed by setupListener (event name
paired with the id of the Subject the handler closure pushes into), and
the one-shot connect handlers registered by listen while disconnected
(lines 375-381). -/
structure Sock where
  sid : Nat
  connected : Bool
  rawListeners : List (String × Nat)
  pendingConnect : List (String × Nat)
deriving DecidableEq, Repr

/-- Physical operations on socket objects, in execution order: used to
state that re-initialization fully tears the old object down
(removeAllListeners, then disconnect) before creating a new one. -/
inductive SockOp where
  | removeAll (sid : Nat)
  | close (sid : Nat)
  | create (sid : Nat)
deriving DecidableEq, Repr

/-- SocketService state (class fields, lines 156-161), together with the
bookkeeping the theorems read off: a ledger of every subject ever
created, fresh-id counters, the list of live (created, not yet closed)
socket ids, and the pending checkConnection polls (lines 383-404). -/
structure Svc where
  auth : Auth
  socket : Option Sock
  isInitializing : Bool
  eventSubjects : List (String × Nat)
  reconnectAttempts : Nat
  suppressRoutineWarnings : Bool
  lastDisconnectReason : Option String
  subjects : List Subject
  nextSubjectId : Nat
  nextSockId : Nat
  live : List Nat
  pendingPolls : List (String × Nat)
deriving DecidableEq, Repr

/-- The service as constructed: no socket, empty registry. -/
def initSvc : Svc := ⟨⟨none, false⟩, none, false, [], 0, false, none, [], 0, 0, [], []⟩

/-- Teardown of this.socket (lines 188-192 and 451-455):
removeAllListeners(), disconnect(), socket = null. -/
def teardownSocket (s : Svc) : Svc × List SockOp :=
  match s.socket with
  | none => (s, [])
  | some k =>
    ({ s with socket := none, live := s.live.filter (fun x => x ≠ k.sid) },
     [.removeAll k.sid, .close k.sid])

/-- initializeSocket (lines 165-238).  Returns early when already
initializing or connected (line 166), when there is no token (line 171),
or when the token is expired (line 177) — console warnings only.
Otherwise it tears any previous socket down fully and creates a fresh,
not-yet-connected socket with no listeners; the lifecycle handlers it
installs are modelled by the event actions below. -/
def initializeSocket (s : Svc) : Svc × List SockOp :=
  if s.isInitializing || (match s.socket with | some k => k.connected | none => false) then
    (s, [])
  else
    match s.auth.token with
    | none => (s, [])
    | some _ =>
      if s.auth.expired then (s, [])
      else
        let s1 := { s with isInitializing := true }
        let td := teardownSocket s1
        let newSock : Sock := ⟨td.1.nextSockId, false, [], []⟩
        ({ td.1 with
            socket := some newSock
            live := td.1.live ++ [newSock.sid]
            nextSockId := td.1.nextSockId + 1 },
         td.2 ++ [.create newSock.sid])

/-- setupListener for one event (lines 354-360): socket.off(event), then
socket.on(event, data => subject.next(data)). -/
def setupListener (event : String) (sid : Nat) (k : Sock) : Sock :=
  { k with rawListeners := k.rawListeners.filter (fun p => p.1 ≠ event) ++ [(event, sid)] }

/-- Attach one subscription to a subject of the ledger. -/
def attachSub (sid subId : Nat) (subjects : List Subject) : List Subject :=
  subjects.map (fun sub =>
    if sub.id = sid then { sub with subs := sub.subs ++ [subId] } else sub)

/-- Lines 350-352 of listen: first listen for an event creates the subject
and registers it in eventSubjects, and the caller subscribes to the
returned shared observable. -/
def listenRegister (event : String) (subId : Nat) (s : Svc) : Svc :=
  { s with
    eventSubjects := s.eventSubjects ++ [(event, s.nextSubjectId)]
    subjects := s.subjects ++ [Subject.mk s.nextSubjectId false [subId]]
    nextSubjectId := s.nextSubjectId + 1 }

/-- Lines 362-370 of listen: initialize the socket when none exists, no
initialization is running, and the token is present and unexpired. -/
def listenInit (s : Svc) : Svc × List SockOp :=
  if s.socket.isNone && !s.isInitializing then
    match s.auth.token with
    | some _ => if s.auth.expired then (s, ([] : List SockOp)) else initializeSocket s
    | none => (s, [])
  else (s, [])

/-- Lines 372-405 of listen: attach the raw listener now when connected,
defer to a one-shot connect handler when a socket exists, otherwise leave
it to the checkConnection polling loop. -/
def listenAttach (event : String) (sid : Nat) (sops : Svc × List SockOp) :
    Svc × List SockOp :=
  match hk : sops.1.socket with
  | some k =>
    if k.connected then
      ({ sops.1 with socket := some (setupListener event sid k) }, sops.2)
    else
      ({ sops.1 with
          socket :=
            some { k with pendingConnect := k.pendingConnect ++ [(event, sid)] } },
       sops.2)
  | none => ({ sops.1 with pendingPolls := sops.1.pendingPolls ++ [(event, sid)] }, sops.2)

/-- listen (lines 348-409) followed by the caller subscribing to the
returned shared observable.  A repeated listen only attaches the new
subscription to the existing subject. -/
def listen (event : String) (subId : Nat) (s : Svc) : Svc × List SockOp :=
  match CacheModel.mapGet s.eventSubjects event with
  | some sid => ({ s with subjects := attachSub sid subId s.subjects }, [])
  | none => listenAttach event s.nextSubjectId (listenInit (listenRegister event subId s))

/-- The connect event (lines 240-246): the transport reports connected;
socket.io then also fires the connect handlers listen registered, each of
which runs setupListener once and unregisters itself (lines 375-381). -/
def onConnect (s : Svc) : Svc :=
  match s.socket with
  | none => s
  | some k =>
    let k1 := k.pendingConnect.foldl (fun kk p => setupListener p.1 p.2 kk)
      { k with connected := true }
    { s with
      socket := some { k1 with pendingConnect := [] }
      isInitializing := false
      reconnectAttempts := 0
      suppressRoutineWarnings := false }

/-- One run of the checkConnection retry loop (lines 384-404) over the
pending polls: attach at once when connected, defer to a connect handler
when a socket exists, do nothing when there is still no socket. -/
def pollTick (s : Svc) : Svc :=
  match s.socket with
  | none => s
  | some k =>
    if k.connected then
      { s with
        socket := some (s.pendingPolls.foldl (fun kk p => setupListener p.1 p.2 kk) k)
        pendingPolls := [] }
    else
      { s with
        socket := some { k with pendingConnect := k.pendingConnect ++ s.pendingPolls }
        pendingPolls := [] }

/-- disconnect() (lines 447-457): complete every subject in the map, clear
the map, tear the socket down, reset isInitializing. -/
def disconnect (s : Svc) : Svc × List SockOp :=
  let vals := s.eventSubjects.map Prod.snd
  let s1 := { s with
    subjects := s.subjects.map
      (fun sub => if sub.id ∈ vals then { sub with closed := true } else sub)
    eventSubjects := [] }
  let td := teardownSocket s1
  ({ td.1 with isInitializing := false }, td.2)

/-- reconnect() (lines 333-346): no-op when connected; when the token is
missing or expired, a console warning and a plain return — the source
neither throws nor returns an error, so the surfaced-error component is
none in every branch; otherwise initializeSocket.  The result carries
(state, socket operations, console warnings, surfaced error). -/
def reconnect (s : Svc) : Svc × List SockOp × List String × Option String :=
  if (match s.socket with | some k => k.connected | none => false) then
    (s, [], [], none)
  else
    match s.auth.token with
    | none => (s, [], ["SocketService: Cannot reconnect - token missing or expired"], none)
    | some _ =>
      if s.auth.expired then
        (s, [], ["SocketService: Cannot reconnect - token missing or expired"], none)
      else
        let r := initializeSocket s
        (r.1, r.2, [], none)

/-- The disconnect transport event (lines 281-312); when the reason is an
io server disconnect or a transport close and the token is expired, the
handler calls this.socket.disconnect(), closing the transport. -/
def onDisconnectEvt (reason : String) (s : Svc) : Svc × List SockOp :=
  match s.socket with
  | none => (s, [])
  | some k =>
    let s1 := { s with
      socket := some { k with connected := false }
      isInitializing := false
      lastDisconnectReason := some reason }
    let isRoutine := reason = "transport close" || reason = "ping timeout" ||
      (reason = "transport error" && decide (s1.reconnectAttempts > 0))
    let s2 := if isRoutine then { s1 with suppressRoutineWarnings := true } else s1
    if (reason = "io server disconnect" || reason = "transport close") && s2.auth.expired then
      ({ s2 with live := s2.live.filter (fun x => x ≠ k.sid) }, [.close k.sid])
    else (s2, [])

/-- The connect_error transport event (lines 248-279); authRelated models
an error message mentioning auth, token, 401 or 403. -/
def onConnectErrorEvt (authRelated : Bool) (s : Svc) : Svc × List SockOp :=
  match s.socket with
  | none => (s, [])
  | some k =>
    let s1 := { s with
      isInitializing := false
      reconnectAttempts := s.reconnectAttempts + 1 }
    if authRelated && s1.auth.expired then
      ({ s1 with live := s1.live.filter (fun x => x ≠ k.sid) }, [.close k.sid])
    else (s1, [])

/-- reconnect_attempt (lines 315-319). -/
def onReconnectAttempt (n : Nat) (s : Svc) : Svc :=
  { s with reconnectAttempts := n, suppressRoutineWarnings := true }

/-- reconnect success event (lines 321-325). -/
def onReconnectedEvt (s : Svc) : Svc :=
  { s with reconnectAttempts := 0, suppressRoutineWarnings := false }

/-- Everything that can happen to the service: its public methods, the
transport lifecycle events, the polling loop firing, credential changes
in AuthService, and an inbound business message. -/
inductive Act where
  | listen (event : String) (subId : Nat)
  | svcReconnect
  | svcDisconnect
  | connectEvt
  | disconnectEvt (reason : String)
  | connectErrorEvt (authRelated : Bool)
  | reconnectAttemptEvt (n : Nat)
  | reconnectedEvt
  | pollTick
  | setAuth (token : Option String) (expired : Bool)
  | message (event : String) (payload : String)
deriving DecidableEq, Repr

/-- One step of the service under an action, with the socket operations it
performs.  An inbound message changes no service state; its deliveries
are read off by deliverOutput below. -/
def stepFull (a : Act) (s : Svc) : Svc × List SockOp :=
  match a with
  | .listen e i => listen e i s
  | .svcReconnect => ((reconnect s).1, (reconnect s).2.1)
  | .svcDisconnect => disconnect s
  | .connectEvt => (onConnect s, [])
  | .disconnectEvt reason => onDisconnectEvt reason s
  | .connectErrorEvt b => onConnectErrorEvt b s
  | .reconnectAttemptEvt n => (onReconnectAttempt n s, [])
  | .reconnectedEvt => (onReconnectedEvt s, [])
  | .pollTick => (pollTick s, [])
  | .setAuth t e => ({ s with auth := ⟨t, e⟩ }, [])
  | .message _ _ => (s, [])

def step (a : Act) (s : Svc) : Svc := (stepFull a s).1

/-- Run a whole action sequence from the freshly constructed service. -/
def run (acts : List Act) : Svc := acts.foldl (fun s a => step a s) initSvc

/-- Run an action sequence from an arbitrary state. -/
def runFrom (s : Svc) (acts : List Act) : Svc := acts.foldl (fun s a => step a s) s

/-- Find a subject in the ledger. -/
def getSubj (s : Svc) (sid : Nat) : Option Subject :=
  s.subjects.find? (fun sub => sub.id = sid)

/-- Subject ids whose raw listener fires for a message on e: messages are
only received while connected. -/
def deliverTargets (e : String) (s : Svc) : List Nat :=
  match s.socket with
  | some k =>
    if k.connected then (k.rawListeners.filter (fun p => p.1 = e)).map Prod.snd else []
  | none => []

/-- What one subject emits to its subscriptions for payload p: one pair
per subscription, nothing once completed (RxJS ignores next after
complete). -/
def subjectEmission (s : Svc) (p : String) (sid : Nat) : List (Nat × String) :=
  match getSubj s sid with
  | some sub => if sub.closed then [] else sub.subs.map (fun n => (n, p))
  | none => []

/-- All deliveries caused by one inbound message on event e, payload p. -/
def deliverOutput (e p : String) (s : Svc) : List (Nat × String) :=
  (deliverTargets e s).flatMap (fun sid => subjectEmission s p sid)

/-- Number of raw listeners for event e on a listener list. -/
def countEv (e : String) (l : List (String × Nat)) : Nat :=
  (l.filter (fun p => p.1 = e)).length

end SocketModel

namespace SocketModel

/- ------------------------------------------------------------------ -/
/- Invariants                                                          -/
/- ------------------------------------------------------------------ -/

/-- The live-socket ledger is empty or exactly the current socket. -/
def LiveInv (s : Svc) : Prop :=
  match s.socket with
  | some k => s.live = [] ∨ s.live = [k.sid]
  | none => s.live = []

/-- At most one raw listener per event name on the current socket. -/
def RawOnce (s : Svc) : Prop :=
  ∀ k, s.socket = some k → ∀ e, countEv e k.rawListeners ≤ 1

/-- Every subject in the ledger has an id below the fresh counter. -/
def IdsBelow (s : Svc) : Prop :=
  ∀ sub ∈ s.subjects, sub.id < s.nextSubjectId

/-- A subject no longer referenced by eventSubjects has been completed. -/
def UnmappedClosed (s : Svc) : Prop :=
  ∀ sub ∈ s.subjects, (∀ p ∈ s.eventSubjects, p.2 ≠ sub.id) → sub.closed

/-- All subjects with id below n are completed. -/
def ClosedBelow (n : Nat) (s : Svc) : Prop :=
  ∀ sub ∈ s.subjects, sub.id < n → sub.closed

/- ------------------------------------------------------------------ -/
end SocketModel

namespace SocketModel
/- ------------------------------------------------------------------ -/
/- Concrete traces for the socket claims                               -/
/- ------------------------------------------------------------------ -/

/-- listen(alert) once, connect, transport drop, reconnect() replacing the
socket, connect again: the subject and its subscription survive but the
new socket carries no raw listener for alert. -/
def c5Trace : List Act :=
  [.setAuth (some "tok") false, .listen "alert" 0, .connectEvt,
   .disconnectEvt "transport close", .svcReconnect, .connectEvt]

/-- The spec scenario: three subscriptions to alert before any connection
exists, then the channel connects. -/
def c5ScenarioTrace : List Act :=
  [.setAuth (some "tok") false, .listen "alert" 0, .listen "alert" 1,
   .listen "alert" 2, .connectEvt]

/-- listen once, connect, transport drop: a state from which reconnect()
re-initializes the socket. -/
def c6Trace : List Act :=
  [.setAuth (some "tok") false, .listen "x" 0, .connectEvt,
   .disconnectEvt "transport close"]

def c10Pre : List Act := [.setAuth (some "tok") false, .listen "alert" 0, .connectEvt]

def c10Post : List Act := [.svcReconnect, .listen "alert" 5, .connectEvt]

end SocketModel

namespace CacheModel


/- ------------------------------------------------------------------ -/
/- Map lemmas                                                          -/
/- ------------------------------------------------------------------ -/

theorem mapGet_mapSet {α : Type} (m : List (String × α)) (k k2 : String) (v : α) :
    mapGet (mapSet m k v) k2 = if k2 = k then some v else mapGet m k2 := by
  induction m with
  | nil =>
    rcases eq_or_ne k2 k with h | h
    · subst h; simp [mapSet, mapGet]
    · simp [mapSet, mapGet, h, Ne.symm h]
  | cons kv rest ih =>
    obtain ⟨k1, v1⟩ := kv
    rcases eq_or_ne k1 k with h1 | h1
    · subst h1
      rcases eq_or_ne k2 k1 with h2 | h2
      · subst h2; simp [mapSet, mapGet]
      · simp [mapSet, mapGet, h2, Ne.symm h2]
    · rcases eq_or_ne k1 k2 with h2 | h2
      · subst h2
        simp [mapSet, mapGet, h1, Ne.symm h1]
      · simp [mapSet, mapGet, h1, h2, ih]

theorem mapGet_mapDelete {α : Type} (m : List (String × α)) (a k : String) :
    mapGet (mapDelete m a) k = if k = a then none else mapGet m k := by
  induction m with
  | nil =>
    rcases eq_or_ne k a with h | h <;> simp [mapDelete, mapGet, h]
  | cons kv rest ih =>
    obtain ⟨k1, v1⟩ := kv
    rcases eq_or_ne k1 a with h1 | h1 <;> rcases eq_or_ne k1 k with h2 | h2 <;>
      rcases eq_or_ne k a with h3 | h3 <;>
      simp_all [mapDelete, mapGet]

theorem mapGet_foldl_mapDelete {α : Type} (ks : List String) (m : List (String × α)) (k : String) :
    mapGet (ks.foldl mapDelete m) k = if k ∈ ks then none else mapGet m k := by
  induction ks generalizing m with
  | nil => simp
  | cons a ks ih =>
    simp only [List.foldl_cons, ih, mapGet_mapDelete, List.mem_cons]
    by_cases h1 : k ∈ ks
    · simp [h1]
    · by_cases h2 : k = a <;> simp [h1, h2]

theorem mapGet_eq_none_of_forall {α : Type} (m : List (String × α)) (k : String)
    (h : ∀ kv ∈ m, kv.1 ≠ k) : mapGet m k = none := by
  induction m with
  | nil => rfl
  | cons kv rest ih =>
    obtain ⟨k1, v1⟩ := kv
    simp only [mapGet]
    rw [if_neg (h (k1, v1) (List.mem_cons_self _ _))]
    exact ih (fun kv hkv => h kv (List.mem_cons_of_mem _ hkv))

theorem foldl_mapDelete_eq_filter {α : Type} (ks : List String) (m : List (String × α)) :
    ks.foldl mapDelete m = m.filter (fun kv => !(ks.contains kv.1)) := by
  induction ks generalizing m with
  | nil => simp
  | cons a ks ih =>
    simp only [List.foldl_cons, ih, mapDelete, List.filter_filter]
    apply List.filter_congr
    intro kv _
    by_cases h1 : kv.1 = a
    · subst h1
      simp
    · by_cases h2 : ks.contains kv.1 = true <;> simp_all

/- ------------------------------------------------------------------ -/
/- Structural lemmas about getCacheKey and cleanup                     -/
/- ------------------------------------------------------------------ -/

theorem getCacheKey_fst (req : Req) (siteId : String) (st : CacheState) :
    (getCacheKey req siteId st).1 = keyOf req.method req.url siteId (resolvedBody req st) := by
  obtain ⟨m, u, b⟩ := req
  cases b with
  | none =>
    simp only [getCacheKey, resolvedBody, keyOf]
    apply String.ext
    simp [String.data_append]
  | some s => rfl

theorem getCacheKey_cache (req : Req) (siteId : String) (st : CacheState) :
    (getCacheKey req siteId st).2.cache = st.cache := by
  obtain ⟨m, u, b⟩ := req
  cases b with
  | none => rfl
  | some s =>
    simp only [getCacheKey]
    split <;> rfl

theorem getCacheKey_lastCleanupTime (req : Req) (siteId : String) (st : CacheState) :
    (getCacheKey req siteId st).2.lastCleanupTime = st.lastCleanupTime := by
  obtain ⟨m, u, b⟩ := req
  cases b with
  | none => rfl
  | some s =>
    simp only [getCacheKey]
    split <;> rfl

theorem mapGet_cleanup (now : Nat) (st : CacheState) (k : String) :
    mapGet (cleanupCacheIfNeeded now st).cache k = mapGet st.cache k ∨
    mapGet (cleanupCacheIfNeeded now st).cache k = none := by
  unfold cleanupCacheIfNeeded
  split
  · exact Or.inl rfl
  · simp only
    split
    · rw [mapGet_foldl_mapDelete]
      split
    -- removed by the size eviction
      · exact Or.inr rfl
      · rw [mapGet_foldl_mapDelete]
        split
        · exact Or.inr rfl
        · exact Or.inl rfl
    · rw [mapGet_foldl_mapDelete]
      split
      · exact Or.inr rfl
      · exact Or.inl rfl

/- ------------------------------------------------------------------ -/
/- Fingerprint parsing                                                 -/
/- ------------------------------------------------------------------ -/

theorem colon_split : ∀ (xs xs2 ys ys2 : List Char),
    (':' : Char) ∉ xs → (':' : Char) ∉ xs2 →
    xs ++ ':' :: ys = xs2 ++ ':' :: ys2 → xs = xs2 ∧ ys = ys2
  | [], [], _, _, _, _, heq => ⟨rfl, by simpa using heq⟩
  | [], c :: t, _, _, _, h2, heq => by
    simp only [List.nil_append, List.cons_append, List.cons.injEq] at heq
    exact absurd (by rw [← heq.1]; exact List.mem_cons_self _ _ : (':' : Char) ∈ c :: t) h2
  | c :: t, [], _, _, h, _, heq => by
    simp only [List.cons_append, List.nil_append, List.cons.injEq] at heq
    exact absurd (by rw [heq.1]; exact List.mem_cons_self _ _ : (':' : Char) ∈ c :: t) h
  | c :: t, c2 :: t2, ys, ys2, h, h2, heq => by
    simp only [List.cons_append, List.cons.injEq] at heq
    have ht : (':' : Char) ∉ t := fun hm => h (List.mem_cons_of_mem _ hm)
    have ht2 : (':' : Char) ∉ t2 := fun hm => h2 (List.mem_cons_of_mem _ hm)
    obtain ⟨e1, e2⟩ := colon_split t t2 ys ys2 ht ht2 heq.2
    exact ⟨by rw [heq.1, e1], e2⟩

theorem keyOf_data (m u A b : String) :
    (keyOf m u A b).data = m.data ++ ':' :: (u.data ++ ':' :: (A.data ++ ':' :: b.data)) := by
  have hc : (":" : String).data = [':'] := rfl
  simp [keyOf, String.data_append, hc]

theorem keyOf_site_inj {m u A b m2 u2 B b2 : String}
    (hm : colonFree m) (hm2 : colonFree m2) (hu : colonFree u) (hu2 : colonFree u2)
    (hA : colonFree A) (hB : colonFree B)
    (h : keyOf m u A b = keyOf m2 u2 B b2) : A = B := by
  have hd : (keyOf m u A b).data = (keyOf m2 u2 B b2).data := by rw [h]
  rw [keyOf_data, keyOf_data] at hd
  obtain ⟨-, hd1⟩ := colon_split _ _ _ _ hm hm2 hd
  obtain ⟨-, hd2⟩ := colon_split _ _ _ _ hu hu2 hd1
  obtain ⟨hAB, -⟩ := colon_split _ _ _ _ hA hB hd2
  exact String.ext hAB

/- ------------------------------------------------------------------ -/
/- Eviction arithmetic                                                 -/
/- ------------------------------------------------------------------ -/

theorem foldl_mapDelete_take_length {α : Type} (l s : List (String × α))
    (hperm : s.Perm l) (hnd : (l.map Prod.fst).Nodup) (n : Nat) :
    (((s.take n).map Prod.fst).foldl mapDelete l).length = l.length - n ∨ n > l.length := by
  by_cases hn : n ≤ l.length
  case neg => exact Or.inr (Nat.lt_of_not_le hn)
  refine Or.inl ?_
  rw [foldl_mapDelete_eq_filter]
  set ks := (s.take n).map Prod.fst with hks
  have hnd2 : (s.map Prod.fst).Nodup := ((hperm.map Prod.fst).nodup_iff).mpr hnd
  have hsplit : s.take n ++ s.drop n = s := List.take_append_drop n s
  have hmap : s.map Prod.fst = ks ++ (s.drop n).map Prod.fst := by
    rw [hks]
    conv_lhs => rw [← hsplit]
    rw [List.map_append]
  have hdisj : List.Disjoint ks ((s.drop n).map Prod.fst) := by
    have hh := hnd2
    rw [hmap] at hh
    exact (List.nodup_append.mp hh).2.2
  have htake : (s.take n).filter (fun kv => !(ks.contains kv.1)) = [] := by
    apply List.filter_eq_nil_iff.mpr
    intro kv hkv
    have hmem : kv.1 ∈ ks := hks ▸ List.mem_map_of_mem Prod.fst hkv
    have hco : ks.contains kv.1 = true := List.elem_iff.mpr hmem
    rw [hco]
    simp
  have hdrop : (s.drop n).filter (fun kv => !(ks.contains kv.1)) = s.drop n := by
    apply List.filter_eq_self.mpr
    intro kv hkv
    have hker : kv.1 ∉ ks := by
      intro hmem
      exact (List.disjoint_left.mp hdisj hmem) (List.mem_map_of_mem Prod.fst hkv)
    cases hco : ks.contains kv.1 with
    | true => exact absurd (List.elem_iff.mp hco) hker
    | false => rfl
  have hfs : s.filter (fun kv => !(ks.contains kv.1)) = s.drop n := by
    conv_lhs => rw [← hsplit]
    rw [List.filter_append, htake, hdrop, List.nil_append]
  have hpf := hperm.filter (fun kv => !(ks.contains kv.1))
  calc (l.filter (fun kv => !(ks.contains kv.1))).length
      = (s.filter (fun kv => !(ks.contains kv.1))).length := (hpf.length_eq).symm
    _ = (s.drop n).length := by rw [hfs]
    _ = s.length - n := List.length_drop n s
    _ = l.length - n := by rw [hperm.length_eq]

theorem expired_sweep_eq_filter (now : Nat) (st : CacheState)
    (hnd : (st.cache.map Prod.fst).Nodup) :
    (((st.cache.filter (fun kv => now - kv.2.timestamp > CACHE_TTL)).map Prod.fst).foldl
        mapDelete st.cache) =
      st.cache.filter (fun kv => now - kv.2.timestamp ≤ CACHE_TTL) := by
  rw [foldl_mapDelete_eq_filter]
  apply List.filter_congr
  intro kv hkv
  by_cases hexp : now - kv.2.timestamp > CACHE_TTL
  · have hmem : kv.1 ∈ (st.cache.filter
        (fun kv => now - kv.2.timestamp > CACHE_TTL)).map Prod.fst := by
      apply List.mem_map_of_mem
      exact List.mem_filter.mpr ⟨hkv, by simpa using hexp⟩
    have hco : ((st.cache.filter
        (fun kv => now - kv.2.timestamp > CACHE_TTL)).map Prod.fst).contains kv.1 = true :=
      List.elem_iff.mpr hmem
    rw [hco, decide_eq_false (Nat.not_le.mpr hexp)]
    simp
  · have hner : kv.1 ∉ (st.cache.filter
        (fun kv => now - kv.2.timestamp > CACHE_TTL)).map Prod.fst := by
      intro hmem
      obtain ⟨kv2, hkv2, hfst⟩ := List.mem_map.mp hmem
      obtain ⟨hkv2m, hkv2e⟩ := List.mem_filter.mp hkv2
      have : kv2 = kv := List.inj_on_of_nodup_map hnd hkv2m hkv hfst
      rw [this] at hkv2e
      exact hexp (by simpa using hkv2e)
    cases hco : ((st.cache.filter
        (fun kv => now - kv.2.timestamp > CACHE_TTL)).map Prod.fst).contains kv.1 with
    | true => exact absurd (List.elem_iff.mp hco) hner
    | false =>
      rw [decide_eq_true (Nat.not_lt.mp hexp)]
      simp

theorem cleanup_length (now : Nat) (st : CacheState)
    (hnd : (st.cache.map Prod.fst).Nodup)
    (helapsed : CACHE_CLEANUP_INTERVAL ≤ now - st.lastCleanupTime) :
    (cleanupCacheIfNeeded now st).cache.length =
      (if (st.cache.filter (fun kv => now - kv.2.timestamp ≤ CACHE_TTL)).length ≥
          MAX_CACHE_SIZE then
        (st.cache.filter (fun kv => now - kv.2.timestamp ≤ CACHE_TTL)).length -
          MAX_CACHE_SIZE / 2
      else (st.cache.filter (fun kv => now - kv.2.timestamp ≤ CACHE_TTL)).length) := by
  unfold cleanupCacheIfNeeded
  rw [if_neg (Nat.not_lt.mpr helapsed)]
  simp only [expired_sweep_eq_filter now st hnd]
  set keep := st.cache.filter (fun kv => now - kv.2.timestamp ≤ CACHE_TTL) with hkeep
  by_cases hsize : keep.length ≥ MAX_CACHE_SIZE
  · rw [if_pos hsize, if_pos hsize]
    have hnodup : (keep.map Prod.fst).Nodup := by
      rw [hkeep]
      exact List.Nodup.sublist ((List.filter_sublist _).map Prod.fst) hnd
    have hperm := List.perm_insertionSort (fun a b => a.2.timestamp ≤ b.2.timestamp) keep
    rcases foldl_mapDelete_take_length keep _ hperm hnodup (MAX_CACHE_SIZE / 2) with h | h
    · exact h
    · exfalso
      have : MAX_CACHE_SIZE / 2 ≤ MAX_CACHE_SIZE := Nat.div_le_self _ _
      omega
  · rw [if_neg hsize, if_neg hsize]

end CacheModel

namespace CacheModel

/- ------------------------------------------------------------------ -/
/- Claim C1                                                            -/
/- ------------------------------------------------------------------ -/

set_option maxRecDepth 100000 in
set_option maxHeartbeats 2000000 in
/-- C1 counterexample: after 101 put operations (101 successful analytics
responses for distinct fingerprints, all within one cleanup interval) the
cache holds 101 entries, exceeding MAX_CACHE_SIZE = 100 — the eviction
algorithm did not run on insertion, refuting the claimed size bound. -/
theorem c1_bounded_size_counterexample :
    MAX_CACHE_SIZE = 100 ∧ (runCache (initState 0) c1Trace).cache.length = 101 := by
  constructor
  · rfl
  · decide

/-- C1 (amended): the cache size is not bounded by MAX_CACHE_SIZE; eviction
is throttled, not run on insertion.  cleanupCacheIfNeeded is a no-op
unless CACHE_CLEANUP_INTERVAL has elapsed since the previous run, and when
it does run it removes the expired entries and then, if at least
MAX_CACHE_SIZE entries remain, removes exactly the MAX_CACHE_SIZE/2
oldest-by-timestamp entries — leaving size minus 50, not necessarily at
most MAX_CACHE_SIZE/2. -/
theorem c1_bounded_size_amended (now : Nat) (st : CacheState) (hwf : WFCache st) :
    (now - st.lastCleanupTime < CACHE_CLEANUP_INTERVAL → cleanupCacheIfNeeded now st = st) ∧
    (CACHE_CLEANUP_INTERVAL ≤ now - st.lastCleanupTime →
      (cleanupCacheIfNeeded now st).cache.length =
        (if (st.cache.filter (fun kv => now - kv.2.timestamp ≤ CACHE_TTL)).length ≥
            MAX_CACHE_SIZE then
          (st.cache.filter (fun kv => now - kv.2.timestamp ≤ CACHE_TTL)).length -
            MAX_CACHE_SIZE / 2
        else (st.cache.filter (fun kv => now - kv.2.timestamp ≤ CACHE_TTL)).length)) := by
  constructor
  · intro h
    unfold cleanupCacheIfNeeded
    rw [if_pos h]
  · intro h
    exact cleanup_length now st hwf.1 h

/-- Closed instance of the amended C1 theorem at concrete inputs. -/
theorem c1_bounded_size_amended_witness :
    cleanupCacheIfNeeded 1000 (initState 0) = initState 0 ∧
    (cleanupCacheIfNeeded 60000 (initState 0)).cache.length = 0 := by
  constructor
  · exact (c1_bounded_size_amended 1000 (initState 0) (by decide)).1 (by decide)
  · rw [(c1_bounded_size_amended 60000 (initState 0) (by decide)).2 (by decide)]
    decide

/- ------------------------------------------------------------------ -/
/- Claim C2                                                            -/
/- ------------------------------------------------------------------ -/

/-- C2 counterexample: getCacheKey is neither state-independent nor
side-effect free.  With the same four arguments (method POST, the same
url, the same site id, the same serialized body b1) it returns different
keys depending on the mutable bodyCache — after an earlier request with
body b2 cached its stringification under the same method:url, the key for
b1 embeds b2 — and calling it from the initial state mutates the state. -/
theorem c2_fingerprint_counterexample :
    (getCacheKey ⟨"POST", "/api/analytics/p", some "b1"⟩ "s" (initState 0)).1 ≠
      (getCacheKey ⟨"POST", "/api/analytics/p", some "b1"⟩ "s"
        ((getCacheKey ⟨"POST", "/api/analytics/p", some "b2"⟩ "s" (initState 0)).2)).1 ∧
    (getCacheKey ⟨"POST", "/api/analytics/p", some "b1"⟩ "s" (initState 0)).2 ≠
      initState 0 := by
  constructor
  · decide
  · decide

/-- C2 (amended): getCacheKey returns the colon-join of method, url,
siteId and a resolved body string — the bodyCache entry for method:url
when present and nonempty, else this request body — it never touches the
response cache, and it is stable: re-running it from the state it itself
returned yields the same key. -/
theorem c2_fingerprint_amended (req : Req) (siteId : String) (st : CacheState) :
    (getCacheKey req siteId st).1 =
      keyOf req.method req.url siteId (resolvedBody req st) ∧
    (getCacheKey req siteId st).2.cache = st.cache ∧
    (getCacheKey req siteId ((getCacheKey req siteId st).2)).1 =
      (getCacheKey req siteId st).1 := by
  refine ⟨getCacheKey_fst req siteId st, getCacheKey_cache req siteId st, ?_⟩
  obtain ⟨m, u, b⟩ := req
  cases b with
  | none => rfl
  | some s =>
    simp only [getCacheKey]
    cases hb : mapGet st.bodyCache (m ++ ":" ++ u) with
    | some c =>
      by_cases hc : c = ""
      · subst hc
        simp [hb]
      · simp [hb, hc]
    | none =>
      simp only [hb, Option.isSome_none, Bool.false_eq_true, if_neg, ite_false]
      simp [mapGet_mapSet]

/- ------------------------------------------------------------------ -/
/- Claim C3                                                            -/
/- ------------------------------------------------------------------ -/

/-- C3 counterexample: a payload stored by a put under tenant y is
returned by a get issued under the different tenant siteB.  The put under
y stores under fingerprint GET:/api/analytics/x:siteB:y: (the URL contains
a colon); the later request under tenant siteB for url /api/analytics/x
with serialized body y: computes the same fingerprint, so the interceptor
serves y's SECRET from the cache (the transport even fails, and no
transport call is made). -/
theorem c3_tenant_isolation_counterexample :
    ("y" : String) ≠ "siteB" ∧
    (interceptorStep ⟨"GET", "/api/analytics/x", some "y:"⟩ "siteB" 1
        (.failure "down") st3).outcome = .ok "SECRET" ∧
    (interceptorStep ⟨"GET", "/api/analytics/x", some "y:"⟩ "siteB" 1
        (.failure "down") st3).usedTransport = false := by
  refine ⟨by decide, by decide, by decide⟩

/-- C3 (amended): provided the method, url and tenant components contain
no colon, fingerprints computed for distinct tenants differ (whatever the
body strings are), and a put under tenant A is invisible to a get under
tenant B: looking up B's fingerprint after storing under A's fingerprint
reads exactly what was there before. -/
theorem c3_tenant_isolation_amended (m u A b m2 u2 B b2 : String)
    (e : CacheEntry) (cache : List (String × CacheEntry))
    (hm : colonFree m) (hm2 : colonFree m2) (hu : colonFree u) (hu2 : colonFree u2)
    (hA : colonFree A) (hB : colonFree B) (hAB : A ≠ B) :
    keyOf m u A b ≠ keyOf m2 u2 B b2 ∧
    mapGet (mapSet cache (keyOf m u A b) e) (keyOf m2 u2 B b2) =
      mapGet cache (keyOf m2 u2 B b2) := by
  have hne : keyOf m u A b ≠ keyOf m2 u2 B b2 :=
    fun h => hAB (keyOf_site_inj hm hm2 hu hu2 hA hB h)
  refine ⟨hne, ?_⟩
  rw [mapGet_mapSet, if_neg (fun h => hne h.symm)]

/-- Closed instance of the amended C3 theorem at concrete inputs. -/
theorem c3_tenant_isolation_amended_witness :
    keyOf "GET" "/api/analytics/u" "siteA" "" ≠ keyOf "GET" "/api/analytics/u" "siteB" "" ∧
    mapGet (mapSet [] (keyOf "GET" "/api/analytics/u" "siteA" "") ⟨"V", 0⟩)
      (keyOf "GET" "/api/analytics/u" "siteB" "") =
      mapGet ([] : List (String × CacheEntry)) (keyOf "GET" "/api/analytics/u" "siteB" "") :=
  c3_tenant_isolation_amended "GET" "/api/analytics/u" "siteA" ""
    "GET" "/api/analytics/u" "siteB" "" ⟨"V", 0⟩ []
    (by decide) (by decide) (by decide) (by decide) (by decide) (by decide) (by decide)

/- ------------------------------------------------------------------ -/
/- Claim C9                                                            -/
/- ------------------------------------------------------------------ -/

/-- C9 counterexample: the entry stored under tenant ab has fingerprint
GET:/api/analytics/u:ab:, which contains the tenant id a as a substring,
yet clearCacheForSite a leaves it in place: a subsequent get under ab is
still a HIT (served from the cache with no transport call), refuting that
every entry whose fingerprint contains the invalidated tenant id is
removed. -/
theorem c9_invalidate_counterexample :
    strContains "GET:/api/analytics/u:ab:" "a" = true ∧
    (interceptorStep ⟨"GET", "/api/analytics/u", none⟩ "ab" 1 (.failure "boom")
        (clearCacheForSite (some "a") st9)).outcome = .ok "VAL" ∧
    (interceptorStep ⟨"GET", "/api/analytics/u", none⟩ "ab" 1 (.failure "boom")
        (clearCacheForSite (some "a") st9)).usedTransport = false := by
  refine ⟨by decide, by decide, by decide⟩

/-- C9 (amended): for a nonempty site id, clearCacheForSite removes
exactly the entries whose fingerprint contains the substring
":" ++ siteId ++ ":"; every other entry (in particular any entry of a
different tenant whose fingerprint lacks that substring) is untouched,
and the body cache is untouched. -/
theorem c9_invalidate_amended (s : String) (st : CacheState) (k : String) (hs : s ≠ "") :
    (mapGet (clearCacheForSite (some s) st).cache k =
      if strContains k (":" ++ s ++ ":") then none else mapGet st.cache k) ∧
    (clearCacheForSite (some s) st).bodyCache = st.bodyCache := by
  constructor
  · simp only [clearCacheForSite]
    rw [if_neg hs]
    simp only
    rw [mapGet_foldl_mapDelete]
    by_cases hc : strContains k (":" ++ s ++ ":") = true
    · rw [if_pos hc]
      by_cases hmem : k ∈ (st.cache.filter
          (fun kv => strContains kv.1 (":" ++ s ++ ":"))).map Prod.fst
      · rw [if_pos hmem]
      · rw [if_neg hmem]
        rw [mapGet_eq_none_of_forall]
        intro kv hkv hkeq
        apply hmem
        rw [← hkeq]
        exact List.mem_map_of_mem Prod.fst (List.mem_filter.mpr ⟨hkv, by rw [hkeq]; exact hc⟩)
    · have hc2 : strContains k (":" ++ s ++ ":") = false := by
        cases h : strContains k (":" ++ s ++ ":") with
        | true => exact absurd h hc
        | false => rfl
      rw [hc2]
      simp only [Bool.false_eq_true, if_false]
      rw [if_neg]
      intro hmem
      obtain ⟨kv, hkv, hkeq⟩ := List.mem_map.mp hmem
      have := (List.mem_filter.mp hkv).2
      rw [hkeq] at this
      exact hc this
  · simp only [clearCacheForSite]
    rw [if_neg hs]

/-- Closed instance of the amended C9 theorem: the spec scenario — after
invalidating siteA, siteA's fingerprint is gone while siteB's earlier
entry is untouched. -/
theorem c9_invalidate_amended_witness :
    mapGet (clearCacheForSite (some "siteA") st9B).cache "GET:/api/analytics/v:siteA:" =
      none ∧
    mapGet (clearCacheForSite (some "siteA") st9B).cache "GET:/api/analytics/u:siteB:" =
      mapGet st9B.cache "GET:/api/analytics/u:siteB:" := by
  constructor
  · rw [(c9_invalidate_amended "siteA" st9B "GET:/api/analytics/v:siteA:" (by decide)).1]
    decide
  · rw [(c9_invalidate_amended "siteA" st9B "GET:/api/analytics/u:siteB:" (by decide)).1]
    decide

end CacheModel

namespace CacheModel

/- ------------------------------------------------------------------ -/
/- Claim C4                                                            -/
/- ------------------------------------------------------------------ -/

set_option maxRecDepth 100000 in
set_option maxHeartbeats 4000000 in
/-- C4 counterexample: put(F, V) happened at time 0 (first conjunct: after
fillTrace the entry for F is (V, 0)), no put or invalidate for F
intervenes (every other step uses a different fingerprint), and time
60001 is strictly before T + CACHE_TTL = 120000 — yet the get for F at
60001 calls the transport and returns its answer W, not V: the miss
request at time 60000 ran the throttled cleanup, whose size-based
eviction removed the unexpired F as one of the 50 oldest entries. -/
theorem c4_freshness_counterexample :
    mapGet (runCache (initState 0) fillTrace).cache "GET:f/api/analytics/u:s:" =
      some ⟨"V", 0⟩ ∧
    (60001 : Nat) - 0 < CACHE_TTL ∧
    (interceptorStep reqF "s" 60001 (.success "W")
        (runCache (initState 0) (fillTrace ++ [evictStep]))).usedTransport = true ∧
    (interceptorStep reqF "s" 60001 (.success "W")
        (runCache (initState 0) (fillTrace ++ [evictStep]))).outcome = .ok "W" := by
  refine ⟨by decide, by decide, by decide, by decide⟩

/-- C4 (amended): freshness holds as long as the entry itself survives:
if the cache still maps the request fingerprint to (V, T) — no put,
invalidate, or cleanup eviction has touched it — then a request at any
time now with now - T < CACHE_TTL is served V from the cache with no
transport call, and a request at now with CACHE_TTL ≤ now - T goes to
the transport (MISS).  The counterexample shows the cleanup eviction,
which the claim did not except, can remove the entry early. -/
theorem c4_freshness_amended (req : Req) (siteId : String) (now : Nat) (tr : Transport)
    (st : CacheState) (V : String) (T : Nat)
    (hurl : isCacheableUrl req.url = true)
    (hent : mapGet st.cache (getCacheKey req siteId st).1 = some ⟨V, T⟩) :
    (now - T < CACHE_TTL →
      (interceptorStep req siteId now tr st).outcome = .ok V ∧
      (interceptorStep req siteId now tr st).usedTransport = false) ∧
    (CACHE_TTL ≤ now - T →
      (interceptorStep req siteId now tr st).usedTransport = true) := by
  have hcache : (getCacheKey req siteId st).2.cache = st.cache :=
    getCacheKey_cache req siteId st
  constructor
  · intro ht
    constructor <;> simp [interceptorStep, hurl, hcache, hent, ht]
  · intro ht
    have hn : ¬(now - T < CACHE_TTL) := Nat.not_lt.mpr ht
    cases tr <;> simp [interceptorStep, hurl, hcache, hent, hn]

/-- Closed instance of the amended C4 theorem: a fresh entry put at time 0
is served from the cache at time 5 even though the transport would fail. -/
theorem c4_freshness_amended_witness :
    (interceptorStep ⟨"GET", "/api/analytics/w", none⟩ "s" 5 (.failure "boom") stW).outcome =
      .ok "V" ∧
    (interceptorStep ⟨"GET", "/api/analytics/w", none⟩ "s" 5
        (.failure "boom") stW).usedTransport = false :=
  (c4_freshness_amended ⟨"GET", "/api/analytics/w", none⟩ "s" 5 (.failure "boom") stW "V" 0
    (by decide) (by decide)).1 (by decide)

/- ------------------------------------------------------------------ -/
/- Claim C8                                                            -/
/- ------------------------------------------------------------------ -/

/-- C8: when the transport delegation fails, the interceptor propagates
exactly the same error to the caller (the catchError handler only logs
and rethrows), and the cache is never extended or modified for any
fingerprint: every fingerprint maps afterwards either to exactly what it
mapped to before or to nothing (the throttled cleanup may have removed
expired entries, but nothing is stored and nothing is altered). -/
theorem c8_transport_failure_not_cached (req : Req) (siteId : String) (now : Nat)
    (err : String) (st : CacheState) :
    ((interceptorStep req siteId now (.failure err) st).usedTransport = true →
      (interceptorStep req siteId now (.failure err) st).outcome = .error err) ∧
    (∀ k, mapGet (interceptorStep req siteId now (.failure err) st).state.cache k =
        mapGet st.cache k ∨
      mapGet (interceptorStep req siteId now (.failure err) st).state.cache k = none) := by
  have hcache : (getCacheKey req siteId st).2.cache = st.cache :=
    getCacheKey_cache req siteId st
  cases hu : isCacheableUrl req.url with
  | false =>
    constructor
    · intro _
      simp [interceptorStep, hu]
    · intro k
      left
      simp [interceptorStep, hu]
  | true =>
    cases hhit : mapGet st.cache (getCacheKey req siteId st).1 with
    | some c =>
      by_cases htl : now - c.timestamp < CACHE_TTL
      · constructor
        · intro habs
          exfalso
          simp [interceptorStep, hu, hcache, hhit, htl] at habs
        · intro k
          left
          simp [interceptorStep, hu, hcache, hhit, htl]
      · constructor
        · intro _
          simp [interceptorStep, hu, hcache, hhit, htl]
        · intro k
          have h2 := mapGet_cleanup now (getCacheKey req siteId st).2 k
          rw [hcache] at h2
          simpa [interceptorStep, hu, hcache, hhit, htl] using h2
    | none =>
      constructor
      · intro _
        simp [interceptorStep, hu, hcache, hhit]
      · intro k
        have h2 := mapGet_cleanup now (getCacheKey req siteId st).2 k
        rw [hcache] at h2
        simpa [interceptorStep, hu, hcache, hhit] using h2

/-- Closed instance of the C8 theorem: a failed analytics request
propagates its error and leaves the (empty) cache without an entry. -/
theorem c8_transport_failure_not_cached_witness :
    (interceptorStep ⟨"GET", "/api/analytics/e", none⟩ "s" 0 (.failure "ERR")
        (initState 0)).outcome = .error "ERR" ∧
    (mapGet (interceptorStep ⟨"GET", "/api/analytics/e", none⟩ "s" 0 (.failure "ERR")
          (initState 0)).state.cache "GET:/api/analytics/e:s:" =
        mapGet (initState 0).cache "GET:/api/analytics/e:s:" ∨
      mapGet (interceptorStep ⟨"GET", "/api/analytics/e", none⟩ "s" 0 (.failure "ERR")
          (initState 0)).state.cache "GET:/api/analytics/e:s:" = none) := by
  constructor
  · exact (c8_transport_failure_not_cached ⟨"GET", "/api/analytics/e", none⟩ "s" 0 "ERR"
      (initState 0)).1 (by decide)
  · exact (c8_transport_failure_not_cached ⟨"GET", "/api/analytics/e", none⟩ "s" 0 "ERR"
      (initState 0)).2 "GET:/api/analytics/e:s:"

end CacheModel

namespace SocketModel
/- Helper lemmas                                                       -/
/- ------------------------------------------------------------------ -/

theorem countEv_setupListener (e ev : String) (sid : Nat) (k : Sock) :
    countEv e (setupListener ev sid k).rawListeners =
      if e = ev then 1 else countEv e k.rawListeners := by
  unfold setupListener countEv
  rw [List.filter_append, List.length_append, List.filter_filter]
  by_cases h : e = ev
  · subst h
    have h1 : (k.rawListeners.filter
        (fun p => decide (p.1 = e) && decide (p.1 ≠ e))) = [] := by
      apply List.filter_eq_nil_iff.mpr
      intro p _
      by_cases hp : p.1 = e <;> simp [hp]
    rw [if_pos rfl, h1]
    simp
  · have h1 : ∀ p : String × Nat, (decide (p.1 = e) && decide (p.1 ≠ ev)) = decide (p.1 = e) := by
      intro p
      by_cases hp : p.1 = e
      · simp [hp, h]
      · simp [hp]
    rw [if_neg h]
    have h2 : (List.filter (fun p => decide (p.1 = e)) [(ev, sid)]).length = 0 := by
      simp
      exact fun hh => h hh.symm
    rw [h2, List.filter_congr (fun p _ => h1 p)]
    simp

theorem rawOnce_foldl (l : List (String × Nat)) (k : Sock)
    (h : ∀ e, countEv e k.rawListeners ≤ 1) :
    ∀ e, countEv e ((l.foldl (fun kk p => setupListener p.1 p.2 kk) k).rawListeners) ≤ 1 := by
  induction l generalizing k with
  | nil => exact h
  | cons p l ih =>
    intro e
    apply ih
    intro e2
    rw [countEv_setupListener]
    by_cases h2 : e2 = p.1
    · rw [if_pos h2]
    · rw [if_neg h2]
      exact h e2

theorem setupListener_sid (ev : String) (sid : Nat) (k : Sock) :
    (setupListener ev sid k).sid = k.sid := rfl

theorem foldl_setupListener_sid (l : List (String × Nat)) (k : Sock) :
    ((l.foldl (fun kk p => setupListener p.1 p.2 kk) k)).sid = k.sid := by
  induction l generalizing k with
  | nil => rfl
  | cons p l ih => exact ih _

theorem mapGet_some_mem {α : Type} (m : List (String × α)) (k : String) (v : α)
    (h : CacheModel.mapGet m k = some v) : (k, v) ∈ m := by
  induction m with
  | nil => exact absurd h (by simp [CacheModel.mapGet])
  | cons kv rest ih =>
    obtain ⟨k1, v1⟩ := kv
    unfold CacheModel.mapGet at h
    by_cases h1 : k1 = k
    · subst h1
      rw [if_pos rfl] at h
      obtain rfl : v1 = v := by simpa using h
      exact List.mem_cons_self _ _
    · rw [if_neg h1] at h
      exact List.mem_cons_of_mem _ (ih h)

theorem teardownSocket_state (s : Svc) (h : LiveInv s) :
    (teardownSocket s).1.socket = none ∧ (teardownSocket s).1.live = [] ∧
    (teardownSocket s).1.subjects = s.subjects ∧
    (teardownSocket s).1.eventSubjects = s.eventSubjects ∧
    (teardownSocket s).1.nextSubjectId = s.nextSubjectId := by
  unfold LiveInv at h
  unfold teardownSocket
  cases hs : s.socket with
  | none => rw [hs] at h; exact ⟨hs, h, rfl, rfl, rfl⟩
  | some k =>
    rw [hs] at h
    refine ⟨rfl, ?_, rfl, rfl, rfl⟩
    rcases h with h | h <;> rw [h] <;> simp

theorem initializeSocket_fields (s : Svc) :
    (initializeSocket s).1.subjects = s.subjects ∧
    (initializeSocket s).1.eventSubjects = s.eventSubjects ∧
    (initializeSocket s).1.nextSubjectId = s.nextSubjectId := by
  unfold initializeSocket teardownSocket
  split
  · exact ⟨rfl, rfl, rfl⟩
  · split
    · exact ⟨rfl, rfl, rfl⟩
    · split
      · exact ⟨rfl, rfl, rfl⟩
      · cases hs : s.socket <;> simp [hs]

theorem liveInv_initializeSocket (s : Svc) (h : LiveInv s) :
    LiveInv (initializeSocket s).1 := by
  have htd := teardownSocket_state { s with isInitializing := true } h
  unfold initializeSocket
  split
  · exact h
  · split
    · exact h
    · split
      · exact h
      · unfold LiveInv
        simp only
        rw [htd.2.1]
        simp

theorem rawOnce_initializeSocket (s : Svc) (h : RawOnce s) :
    RawOnce (initializeSocket s).1 := by
  unfold initializeSocket
  split
  · exact h
  · split
    · exact h
    · split
      · exact h
      · intro k hk e
        simp only at hk
        injection hk with hk
        subst hk
        simp [countEv]

end SocketModel

namespace SocketModel

/- ------------------------------------------------------------------ -/
/- Field-transfer lemmas                                               -/
/- ------------------------------------------------------------------ -/

theorem liveInv_of_fields (s1 s2 : Svc) (hs : s2.socket = s1.socket)
    (hl : s2.live = s1.live) (h : LiveInv s1) : LiveInv s2 := by
  unfold LiveInv at *
  rw [hs, hl]
  exact h

theorem rawOnce_of_fields (s1 s2 : Svc) (hs : s2.socket = s1.socket)
    (h : RawOnce s1) : RawOnce s2 := by
  intro k hk
  rw [hs] at hk
  exact h k hk

theorem teardownSocket_fields (s : Svc) :
    (teardownSocket s).1.socket = none ∧
    (teardownSocket s).1.subjects = s.subjects ∧
    (teardownSocket s).1.eventSubjects = s.eventSubjects ∧
    (teardownSocket s).1.nextSubjectId = s.nextSubjectId ∧
    (teardownSocket s).1.pendingPolls = s.pendingPolls := by
  unfold teardownSocket
  cases hs : s.socket with
  | none => exact ⟨hs, rfl, rfl, rfl, rfl⟩
  | some k => exact ⟨rfl, rfl, rfl, rfl, rfl⟩

theorem teardownSocket_live (s : Svc) (h : LiveInv s) :
    (teardownSocket s).1.live = [] := by
  unfold LiveInv at h
  unfold teardownSocket
  cases hs : s.socket with
  | none => rw [hs] at h; exact h
  | some k =>
    rw [hs] at h
    rcases h with h | h <;> rw [h] <;> simp

/- ------------------------------------------------------------------ -/
/- LiveInv preservation                                                -/
/- ------------------------------------------------------------------ -/

theorem liveInv_listenInit (s : Svc) (h : LiveInv s) : LiveInv (listenInit s).1 := by
  unfold listenInit
  split
  · split
    · split
      · exact h
      · exact liveInv_initializeSocket s h
    · exact h
  · exact h

theorem liveInv_of_some (x : Svc) (k : Sock) (hs : x.socket = some k)
    (h : x.live = [] ∨ x.live = [k.sid]) : LiveInv x := by
  unfold LiveInv
  rw [hs]
  exact h

theorem liveInv_of_none (x : Svc) (hs : x.socket = none) (hl : x.live = []) :
    LiveInv x := by
  unfold LiveInv
  rw [hs, hl]

theorem liveInv_some_live (s : Svc) (k : Sock) (hs : s.socket = some k)
    (h : LiveInv s) : s.live = [] ∨ s.live = [k.sid] := by
  unfold LiveInv at h
  rw [hs] at h
  exact h

theorem liveInv_listenAttach (e : String) (sid : Nat) (sops : Svc × List SockOp)
    (h : LiveInv sops.1) : LiveInv (listenAttach e sid sops).1 := by
  unfold listenAttach
  split
  case h_1 k hk =>
    have h2 := liveInv_some_live _ k hk h
    split
    · exact liveInv_of_some _ _ rfl h2
    · exact liveInv_of_some _ _ rfl h2
  case h_2 hk =>
    exact liveInv_of_fields sops.1 _ rfl rfl h

theorem liveInv_onConnect (s : Svc) (h : LiveInv s) : LiveInv (onConnect s) := by
  unfold onConnect
  split
  case h_1 hs => exact h
  case h_2 k hs =>
    have h2 := liveInv_some_live _ k hs h
    have h3 : (k.pendingConnect.foldl (fun kk p => setupListener p.1 p.2 kk)
        { k with connected := true }).sid = k.sid := foldl_setupListener_sid _ _
    refine liveInv_of_some _ _ rfl ?_
    rcases h2 with h2 | h2
    · exact Or.inl h2
    · exact Or.inr (h2.trans (congrArg (fun n => [n]) h3.symm))

theorem liveInv_pollTick (s : Svc) (h : LiveInv s) : LiveInv (pollTick s) := by
  unfold pollTick
  split
  case h_1 hs => exact h
  case h_2 k hs =>
    have h2 := liveInv_some_live _ k hs h
    have h3 : (s.pendingPolls.foldl (fun kk p => setupListener p.1 p.2 kk) k).sid = k.sid :=
      foldl_setupListener_sid _ _
    split
    · refine liveInv_of_some _ _ rfl ?_
      rcases h2 with h2 | h2
      · exact Or.inl h2
      · exact Or.inr (h2.trans (congrArg (fun n => [n]) h3.symm))
    · exact liveInv_of_some _ _ rfl h2

theorem liveInv_disconnect (s : Svc) (h : LiveInv s) : LiveInv (disconnect s).1 := by
  have h1 : LiveInv { s with
      subjects := s.subjects.map
        (fun sub => if sub.id ∈ s.eventSubjects.map Prod.snd then
          { sub with closed := true } else sub)
      eventSubjects := [] } := h
  exact liveInv_of_none _ (teardownSocket_fields _).1 (teardownSocket_live _ h1)

theorem liveInv_reconnect (s : Svc) (h : LiveInv s) : LiveInv (reconnect s).1 := by
  unfold reconnect
  split
  · exact h
  · split
    · exact h
    · split
      · exact h
      · exact liveInv_initializeSocket s h

theorem liveInv_onDisconnectEvt (reason : String) (s : Svc) (h : LiveInv s) :
    LiveInv (onDisconnectEvt reason s).1 := by
  unfold onDisconnectEvt
  split
  case h_1 hs => exact h
  case h_2 k hs =>
    have h2 := liveInv_some_live _ k hs h
    dsimp only
    split <;> try split
    all_goals refine liveInv_of_some _ _ rfl ?_
    all_goals
      first
        | exact h2
        | exact Or.inl (by rcases h2 with h2 | h2 <;> rw [h2] <;> simp)

theorem liveInv_onConnectErrorEvt (b : Bool) (s : Svc) (h : LiveInv s) :
    LiveInv (onConnectErrorEvt b s).1 := by
  unfold onConnectErrorEvt
  split
  case h_1 hs => exact h
  case h_2 k hs =>
    have h2 := liveInv_some_live _ k hs h
    dsimp only
    split
    · refine liveInv_of_some _ k hs ?_
      exact Or.inl (by rcases h2 with h2 | h2 <;> rw [h2] <;> simp)
    · exact liveInv_of_fields s _ rfl rfl h

theorem liveInv_listen (e : String) (i : Nat) (s : Svc) (h : LiveInv s) :
    LiveInv (listen e i s).1 := by
  unfold listen
  split
  · exact liveInv_of_fields s _ rfl rfl h
  · exact liveInv_listenAttach _ _ _
      (liveInv_listenInit _ (liveInv_of_fields s _ rfl rfl h))

theorem liveInv_step (a : Act) (s : Svc) (h : LiveInv s) : LiveInv (step a s) := by
  cases a with
  | listen e i => exact liveInv_listen e i s h
  | svcReconnect => exact liveInv_reconnect s h
  | svcDisconnect => exact liveInv_disconnect s h
  | connectEvt => exact liveInv_onConnect s h
  | disconnectEvt reason => exact liveInv_onDisconnectEvt reason s h
  | connectErrorEvt b => exact liveInv_onConnectErrorEvt b s h
  | reconnectAttemptEvt n => exact liveInv_of_fields s _ rfl rfl h
  | reconnectedEvt => exact liveInv_of_fields s _ rfl rfl h
  | pollTick => exact liveInv_pollTick s h
  | setAuth t e => exact liveInv_of_fields s _ rfl rfl h
  | message e p => exact h

theorem liveInv_run (acts : List Act) : LiveInv (run acts) := by
  have hgen : ∀ (l : List Act) (s : Svc), LiveInv s →
      LiveInv (l.foldl (fun s a => step a s) s) := by
    intro l
    induction l with
    | nil => intro s h; exact h
    | cons a l ih => intro s h; exact ih _ (liveInv_step a s h)
  have h0 : LiveInv initSvc := by unfold LiveInv initSvc; simp
  exact hgen acts initSvc h0

end SocketModel

namespace SocketModel

/- ------------------------------------------------------------------ -/
/- More field lemmas                                                   -/
/- ------------------------------------------------------------------ -/

theorem disconnect_fields (s : Svc) :
    (disconnect s).1.socket = none ∧
    (disconnect s).1.eventSubjects = [] ∧
    (disconnect s).1.nextSubjectId = s.nextSubjectId ∧
    (disconnect s).1.subjects = s.subjects.map
      (fun sub => if sub.id ∈ s.eventSubjects.map Prod.snd then
        { sub with closed := true } else sub) :=
  ⟨(teardownSocket_fields _).1, (teardownSocket_fields _).2.2.1,
   (teardownSocket_fields _).2.2.2.1, (teardownSocket_fields _).2.1⟩

theorem listenAttach_fields (e : String) (sid : Nat) (sops : Svc × List SockOp) :
    (listenAttach e sid sops).1.subjects = sops.1.subjects ∧
    (listenAttach e sid sops).1.eventSubjects = sops.1.eventSubjects ∧
    (listenAttach e sid sops).1.nextSubjectId = sops.1.nextSubjectId ∧
    (listenAttach e sid sops).2 = sops.2 := by
  unfold listenAttach
  split
  case h_1 k hk => split <;> exact ⟨rfl, rfl, rfl, rfl⟩
  case h_2 hk => exact ⟨rfl, rfl, rfl, rfl⟩

theorem listenInit_fields (s : Svc) :
    (listenInit s).1.subjects = s.subjects ∧
    (listenInit s).1.eventSubjects = s.eventSubjects ∧
    (listenInit s).1.nextSubjectId = s.nextSubjectId := by
  unfold listenInit
  split
  · split
    · split
      · exact ⟨rfl, rfl, rfl⟩
      · exact initializeSocket_fields s
    · exact ⟨rfl, rfl, rfl⟩
  · exact ⟨rfl, rfl, rfl⟩

theorem onConnect_fields (s : Svc) :
    (onConnect s).subjects = s.subjects ∧
    (onConnect s).eventSubjects = s.eventSubjects ∧
    (onConnect s).nextSubjectId = s.nextSubjectId := by
  unfold onConnect
  split <;> exact ⟨rfl, rfl, rfl⟩

theorem pollTick_fields (s : Svc) :
    (pollTick s).subjects = s.subjects ∧
    (pollTick s).eventSubjects = s.eventSubjects ∧
    (pollTick s).nextSubjectId = s.nextSubjectId := by
  unfold pollTick
  split
  · exact ⟨rfl, rfl, rfl⟩
  · split <;> exact ⟨rfl, rfl, rfl⟩

theorem onDisconnectEvt_fields (reason : String) (s : Svc) :
    (onDisconnectEvt reason s).1.subjects = s.subjects ∧
    (onDisconnectEvt reason s).1.eventSubjects = s.eventSubjects ∧
    (onDisconnectEvt reason s).1.nextSubjectId = s.nextSubjectId := by
  unfold onDisconnectEvt
  split
  · exact ⟨rfl, rfl, rfl⟩
  · dsimp only
    split <;> try split
    all_goals exact ⟨rfl, rfl, rfl⟩

theorem onConnectErrorEvt_fields (b : Bool) (s : Svc) :
    (onConnectErrorEvt b s).1.subjects = s.subjects ∧
    (onConnectErrorEvt b s).1.eventSubjects = s.eventSubjects ∧
    (onConnectErrorEvt b s).1.nextSubjectId = s.nextSubjectId := by
  unfold onConnectErrorEvt
  split
  · exact ⟨rfl, rfl, rfl⟩
  · dsimp only
    split <;> exact ⟨rfl, rfl, rfl⟩

theorem reconnect_fields (s : Svc) :
    (reconnect s).1.subjects = s.subjects ∧
    (reconnect s).1.eventSubjects = s.eventSubjects ∧
    (reconnect s).1.nextSubjectId = s.nextSubjectId := by
  unfold reconnect
  split
  · exact ⟨rfl, rfl, rfl⟩
  · split
    · exact ⟨rfl, rfl, rfl⟩
    · split
      · exact ⟨rfl, rfl, rfl⟩
      · exact initializeSocket_fields s

/- ------------------------------------------------------------------ -/
/- RawOnce preservation                                                -/
/- ------------------------------------------------------------------ -/

theorem rawOnce_of_some (x : Svc) (k : Sock) (hs : x.socket = some k)
    (h : ∀ e, countEv e k.rawListeners ≤ 1) : RawOnce x := by
  intro k2 hk2
  rw [hs] at hk2
  injection hk2 with hk2
  subst hk2
  exact h

theorem rawOnce_of_none (x : Svc) (hs : x.socket = none) : RawOnce x := by
  intro k hk
  rw [hs] at hk
  exact absurd hk (by simp)

theorem rawOnce_listenInit (s : Svc) (h : RawOnce s) : RawOnce (listenInit s).1 := by
  unfold listenInit
  split
  · split
    · split
      · exact h
      · exact rawOnce_initializeSocket s h
    · exact h
  · exact h

theorem rawOnce_listenAttach (e : String) (sid : Nat) (sops : Svc × List SockOp)
    (h : RawOnce sops.1) : RawOnce (listenAttach e sid sops).1 := by
  unfold listenAttach
  split
  case h_1 k hk =>
    have h2 := h k hk
    split
    · refine rawOnce_of_some _ _ rfl ?_
      intro e2
      rw [countEv_setupListener]
      split
      · exact Nat.le_refl 1
      · exact h2 e2
    · refine rawOnce_of_some _ _ rfl ?_
      intro e2
      exact h2 e2
  case h_2 hk =>
    exact rawOnce_of_fields sops.1 _ rfl h

theorem rawOnce_onConnect (s : Svc) (h : RawOnce s) : RawOnce (onConnect s) := by
  unfold onConnect
  split
  case h_1 hs => exact h
  case h_2 k hs =>
    have h2 := h k hs
    refine rawOnce_of_some _ _ rfl ?_
    intro e
    exact rawOnce_foldl k.pendingConnect { k with connected := true } h2 e

theorem rawOnce_pollTick (s : Svc) (h : RawOnce s) : RawOnce (pollTick s) := by
  unfold pollTick
  split
  case h_1 hs => exact h
  case h_2 k hs =>
    have h2 := h k hs
    split
    · refine rawOnce_of_some _ _ rfl ?_
      intro e
      exact rawOnce_foldl s.pendingPolls k h2 e
    · refine rawOnce_of_some _ _ rfl ?_
      intro e
      exact h2 e

theorem rawOnce_disconnect (s : Svc) (h : RawOnce s) : RawOnce (disconnect s).1 :=
  rawOnce_of_none _ (disconnect_fields s).1

theorem rawOnce_reconnect (s : Svc) (h : RawOnce s) : RawOnce (reconnect s).1 := by
  unfold reconnect
  split
  · exact h
  · split
    · exact h
    · split
      · exact h
      · exact rawOnce_initializeSocket s h

theorem rawOnce_onDisconnectEvt (reason : String) (s : Svc) (h : RawOnce s) :
    RawOnce (onDisconnectEvt reason s).1 := by
  unfold onDisconnectEvt
  split
  case h_1 hs => exact h
  case h_2 k hs =>
    have h2 := h k hs
    dsimp only
    split <;> try split
    all_goals refine rawOnce_of_some _ _ rfl ?_
    all_goals exact fun e => h2 e

theorem rawOnce_onConnectErrorEvt (b : Bool) (s : Svc) (h : RawOnce s) :
    RawOnce (onConnectErrorEvt b s).1 := by
  unfold onConnectErrorEvt
  split
  case h_1 hs => exact h
  case h_2 k hs =>
    dsimp only
    split
    · exact rawOnce_of_fields s _ rfl h
    · exact rawOnce_of_fields s _ rfl h

theorem rawOnce_listen (e : String) (i : Nat) (s : Svc) (h : RawOnce s) :
    RawOnce (listen e i s).1 := by
  unfold listen
  split
  · exact rawOnce_of_fields s _ rfl h
  · exact rawOnce_listenAttach _ _ _
      (rawOnce_listenInit _ (rawOnce_of_fields s _ rfl h))

theorem rawOnce_step (a : Act) (s : Svc) (h : RawOnce s) : RawOnce (step a s) := by
  cases a with
  | listen e i => exact rawOnce_listen e i s h
  | svcReconnect => exact rawOnce_reconnect s h
  | svcDisconnect => exact rawOnce_disconnect s h
  | connectEvt => exact rawOnce_onConnect s h
  | disconnectEvt reason => exact rawOnce_onDisconnectEvt reason s h
  | connectErrorEvt b => exact rawOnce_onConnectErrorEvt b s h
  | reconnectAttemptEvt n => exact rawOnce_of_fields s _ rfl h
  | reconnectedEvt => exact rawOnce_of_fields s _ rfl h
  | pollTick => exact rawOnce_pollTick s h
  | setAuth t e => exact rawOnce_of_fields s _ rfl h
  | message e p => exact h

theorem rawOnce_run (acts : List Act) : RawOnce (run acts) := by
  have hgen : ∀ (l : List Act) (s : Svc), RawOnce s →
      RawOnce (l.foldl (fun s a => step a s) s) := by
    intro l
    induction l with
    | nil => exact fun s h => h
    | cons a l ih => exact fun s h => ih _ (rawOnce_step a s h)
  exact hgen acts initSvc (rawOnce_of_none _ rfl)

end SocketModel

namespace SocketModel

/- ------------------------------------------------------------------ -/
/- Subject-ledger invariants                                           -/
/- ------------------------------------------------------------------ -/

theorem subjFields_transfer (s1 s2 : Svc) (hsub : s2.subjects = s1.subjects)
    (hev : s2.eventSubjects = s1.eventSubjects) (hn : s2.nextSubjectId = s1.nextSubjectId) :
    (IdsBelow s1 → IdsBelow s2) ∧ (UnmappedClosed s1 → UnmappedClosed s2) ∧
    (∀ n, ClosedBelow n s1 → ClosedBelow n s2) := by
  refine ⟨?_, ?_, ?_⟩
  · intro h sub hsub2
    rw [hsub] at hsub2
    rw [hn]
    exact h sub hsub2
  · intro h sub hsub2 hun
    rw [hsub] at hsub2
    apply h sub hsub2
    intro p hp
    exact hun p (by rw [hev]; exact hp)
  · intro n h sub hsub2
    rw [hsub] at hsub2
    exact h sub hsub2

theorem subjInv_attach (sid i : Nat) (s : Svc) :
    (IdsBelow s → IdsBelow { s with subjects := attachSub sid i s.subjects }) ∧
    (UnmappedClosed s → UnmappedClosed { s with subjects := attachSub sid i s.subjects }) ∧
    (∀ n, ClosedBelow n s → ClosedBelow n { s with subjects := attachSub sid i s.subjects }) := by
  have hmem : ∀ sub ∈ attachSub sid i s.subjects, ∃ x ∈ s.subjects,
      sub.id = x.id ∧ sub.closed = x.closed := by
    intro sub hsub
    unfold attachSub at hsub
    obtain ⟨x, hx, rfl⟩ := List.mem_map.mp hsub
    refine ⟨x, hx, ?_, ?_⟩ <;> split <;> rfl
  refine ⟨?_, ?_, ?_⟩
  · intro h sub hsub
    obtain ⟨x, hx, hid, -⟩ := hmem sub hsub
    rw [hid]
    exact h x hx
  · intro h sub hsub hun
    obtain ⟨x, hx, hid, hcl⟩ := hmem sub hsub
    rw [hcl]
    apply h x hx
    intro p hp
    intro hh
    exact hun p hp (by rw [hid]; exact hh)
  · intro n h sub hsub hlt
    obtain ⟨x, hx, hid, hcl⟩ := hmem sub hsub
    rw [hcl]
    refine h x hx ?_
    rw [← hid]
    exact hlt

theorem idsBelow_register (e : String) (i : Nat) (s : Svc) (h : IdsBelow s) :
    IdsBelow (listenRegister e i s) := by
  intro sub hsub
  have hsub2 : sub ∈ s.subjects ++ [Subject.mk s.nextSubjectId false [i]] := hsub
  rw [List.mem_append] at hsub2
  show sub.id < s.nextSubjectId + 1
  rcases hsub2 with h2 | h2
  · exact Nat.lt_succ_of_lt (h sub h2)
  · rw [List.mem_singleton] at h2
    rw [h2]
    exact Nat.lt_succ_self _

theorem unmappedClosed_register (e : String) (i : Nat) (s : Svc)
    (h : UnmappedClosed s) : UnmappedClosed (listenRegister e i s) := by
  intro sub hsub hun
  have hsub2 : sub ∈ s.subjects ++ [Subject.mk s.nextSubjectId false [i]] := hsub
  rw [List.mem_append] at hsub2
  rcases hsub2 with h2 | h2
  · apply h sub h2
    intro p hp
    exact hun p (List.mem_append_left _ hp)
  · exfalso
    rw [List.mem_singleton] at h2
    have hx := hun (e, s.nextSubjectId)
      (List.mem_append_right _ (List.mem_singleton.mpr rfl))
    rw [h2] at hx
    exact hx rfl

theorem closedBelow_register (n : Nat) (e : String) (i : Nat) (s : Svc)
    (h : ClosedBelow n s) (hn : n ≤ s.nextSubjectId) :
    ClosedBelow n (listenRegister e i s) := by
  intro sub hsub hlt
  have hsub2 : sub ∈ s.subjects ++ [Subject.mk s.nextSubjectId false [i]] := hsub
  rw [List.mem_append] at hsub2
  rcases hsub2 with h2 | h2
  · exact h sub h2 hlt
  · rw [List.mem_singleton] at h2
    rw [h2] at hlt
    exact absurd hlt (Nat.not_lt.mpr hn)

theorem allClosed_disconnect (s : Svc) (h : UnmappedClosed s) :
    ∀ sub ∈ (disconnect s).1.subjects, sub.closed = true := by
  intro sub hsub
  rw [(disconnect_fields s).2.2.2] at hsub
  obtain ⟨x, hx, rfl⟩ := List.mem_map.mp hsub
  by_cases hm : x.id ∈ s.eventSubjects.map Prod.snd
  · rw [if_pos hm]
  · rw [if_neg hm]
    apply h x hx
    intro p hp hpx
    exact hm (by rw [← hpx]; exact List.mem_map_of_mem Prod.snd hp)

theorem unmappedClosed_disconnect (s : Svc) (h : UnmappedClosed s) :
    UnmappedClosed (disconnect s).1 := by
  intro sub hsub _
  exact allClosed_disconnect s h sub hsub

theorem closedBelow_disconnect (n : Nat) (s : Svc) (h : ClosedBelow n s) :
    ClosedBelow n (disconnect s).1 := by
  intro sub hsub hlt
  rw [(disconnect_fields s).2.2.2] at hsub
  obtain ⟨x, hx, rfl⟩ := List.mem_map.mp hsub
  have hid : (if x.id ∈ s.eventSubjects.map Prod.snd then
      { x with closed := true } else x).id = x.id := by split <;> rfl
  by_cases hm : x.id ∈ s.eventSubjects.map Prod.snd
  · rw [if_pos hm]
  · rw [if_neg hm]
    rw [hid] at hlt
    exact h x hx hlt

theorem idsBelow_disconnect (s : Svc) (h : IdsBelow s) : IdsBelow (disconnect s).1 := by
  intro sub hsub
  rw [(disconnect_fields s).2.2.2] at hsub
  obtain ⟨x, hx, rfl⟩ := List.mem_map.mp hsub
  have hid : (if x.id ∈ s.eventSubjects.map Prod.snd then
      { x with closed := true } else x).id = x.id := by split <;> rfl
  rw [hid, (disconnect_fields s).2.2.1]
  exact h x hx

theorem subjInvs_step (a : Act) (s : Svc)
    (h1 : IdsBelow s) (h2 : UnmappedClosed s) :
    IdsBelow (step a s) ∧ UnmappedClosed (step a s) := by
  cases a with
  | listen e i =>
    show IdsBelow (listen e i s).1 ∧ UnmappedClosed (listen e i s).1
    unfold listen
    split
    case h_1 sid hm =>
      exact ⟨(subjInv_attach sid i s).1 h1, (subjInv_attach sid i s).2.1 h2⟩
    case h_2 hm =>
      have hf1 := listenInit_fields (listenRegister e i s)
      have hf2 := listenAttach_fields e s.nextSubjectId (listenInit (listenRegister e i s))
      have t1 := subjFields_transfer (listenRegister e i s)
        (listenInit (listenRegister e i s)).1 hf1.1 hf1.2.1 hf1.2.2
      have t2 := subjFields_transfer (listenInit (listenRegister e i s)).1
        (listenAttach e s.nextSubjectId (listenInit (listenRegister e i s))).1
        hf2.1 hf2.2.1 hf2.2.2.1
      exact ⟨t2.1 (t1.1 (idsBelow_register e i s h1)),
        t2.2.1 (t1.2.1 (unmappedClosed_register e i s h2))⟩
  | svcReconnect =>
    have hf := reconnect_fields s
    have t := subjFields_transfer s _ hf.1 hf.2.1 hf.2.2
    exact ⟨t.1 h1, t.2.1 h2⟩
  | svcDisconnect => exact ⟨idsBelow_disconnect s h1, unmappedClosed_disconnect s h2⟩
  | connectEvt =>
    have hf := onConnect_fields s
    have t := subjFields_transfer s _ hf.1 hf.2.1 hf.2.2
    exact ⟨t.1 h1, t.2.1 h2⟩
  | disconnectEvt reason =>
    have hf := onDisconnectEvt_fields reason s
    have t := subjFields_transfer s _ hf.1 hf.2.1 hf.2.2
    exact ⟨t.1 h1, t.2.1 h2⟩
  | connectErrorEvt b =>
    have hf := onConnectErrorEvt_fields b s
    have t := subjFields_transfer s _ hf.1 hf.2.1 hf.2.2
    exact ⟨t.1 h1, t.2.1 h2⟩
  | reconnectAttemptEvt n => exact ⟨h1, h2⟩
  | reconnectedEvt => exact ⟨h1, h2⟩
  | pollTick =>
    have hf := pollTick_fields s
    have t := subjFields_transfer s _ hf.1 hf.2.1 hf.2.2
    exact ⟨t.1 h1, t.2.1 h2⟩
  | setAuth t e => exact ⟨h1, h2⟩
  | message e p => exact ⟨h1, h2⟩

theorem subjInvs_run (acts : List Act) :
    IdsBelow (run acts) ∧ UnmappedClosed (run acts) := by
  have hgen : ∀ (l : List Act) (s : Svc), IdsBelow s → UnmappedClosed s →
      IdsBelow (l.foldl (fun s a => step a s) s) ∧
      UnmappedClosed (l.foldl (fun s a => step a s) s) := by
    intro l
    induction l with
    | nil => exact fun s h1 h2 => ⟨h1, h2⟩
    | cons a l ih =>
      intro s h1 h2
      obtain ⟨g1, g2⟩ := subjInvs_step a s h1 h2
      exact ih _ g1 g2
  exact hgen acts initSvc (by intro sub hsub; cases hsub) (by intro sub hsub; cases hsub)

theorem closedBelow_step (n : Nat) (a : Act) (s : Svc)
    (h : ClosedBelow n s) (hn : n ≤ s.nextSubjectId) :
    ClosedBelow n (step a s) ∧ n ≤ (step a s).nextSubjectId := by
  cases a with
  | listen e i =>
    show ClosedBelow n (listen e i s).1 ∧ n ≤ (listen e i s).1.nextSubjectId
    unfold listen
    split
    case h_1 sid hm =>
      exact ⟨(subjInv_attach sid i s).2.2 n h, hn⟩
    case h_2 hm =>
      have hf1 := listenInit_fields (listenRegister e i s)
      have hf2 := listenAttach_fields e s.nextSubjectId (listenInit (listenRegister e i s))
      have t1 := subjFields_transfer (listenRegister e i s)
        (listenInit (listenRegister e i s)).1 hf1.1 hf1.2.1 hf1.2.2
      have t2 := subjFields_transfer (listenInit (listenRegister e i s)).1
        (listenAttach e s.nextSubjectId (listenInit (listenRegister e i s))).1
        hf2.1 hf2.2.1 hf2.2.2.1
      refine ⟨t2.2.2 n (t1.2.2 n (closedBelow_register n e i s h hn)), ?_⟩
      exact le_of_le_of_eq (Nat.le_succ_of_le hn) (hf2.2.2.1.trans hf1.2.2).symm
  | svcReconnect =>
    have hf := reconnect_fields s
    have t := subjFields_transfer s _ hf.1 hf.2.1 hf.2.2
    exact ⟨t.2.2 n h, le_of_le_of_eq hn hf.2.2.symm⟩
  | svcDisconnect =>
    refine ⟨closedBelow_disconnect n s h, ?_⟩
    exact le_of_le_of_eq hn (disconnect_fields s).2.2.1.symm
  | connectEvt =>
    have hf := onConnect_fields s
    have t := subjFields_transfer s _ hf.1 hf.2.1 hf.2.2
    exact ⟨t.2.2 n h, le_of_le_of_eq hn hf.2.2.symm⟩
  | disconnectEvt reason =>
    have hf := onDisconnectEvt_fields reason s
    have t := subjFields_transfer s _ hf.1 hf.2.1 hf.2.2
    exact ⟨t.2.2 n h, le_of_le_of_eq hn hf.2.2.symm⟩
  | connectErrorEvt b =>
    have hf := onConnectErrorEvt_fields b s
    have t := subjFields_transfer s _ hf.1 hf.2.1 hf.2.2
    exact ⟨t.2.2 n h, le_of_le_of_eq hn hf.2.2.symm⟩
  | reconnectAttemptEvt m => exact ⟨h, hn⟩
  | reconnectedEvt => exact ⟨h, hn⟩
  | pollTick =>
    have hf := pollTick_fields s
    have t := subjFields_transfer s _ hf.1 hf.2.1 hf.2.2
    exact ⟨t.2.2 n h, le_of_le_of_eq hn hf.2.2.symm⟩
  | setAuth t e => exact ⟨h, hn⟩
  | message e p => exact ⟨h, hn⟩

theorem closedBelow_runFrom (n : Nat) (s : Svc) (acts : List Act)
    (h : ClosedBelow n s) (hn : n ≤ s.nextSubjectId) :
    ClosedBelow n (runFrom s acts) ∧ n ≤ (runFrom s acts).nextSubjectId := by
  induction acts generalizing s with
  | nil => exact ⟨h, hn⟩
  | cons a l ih =>
    obtain ⟨g1, g2⟩ := closedBelow_step n a s h hn
    exact ih _ g1 g2

end SocketModel

namespace SocketModel

/- ------------------------------------------------------------------ -/
/- Socket-operation shapes (teardown before create)                    -/
/- ------------------------------------------------------------------ -/

theorem listenInit_ops_of_some (s : Svc) (old : Sock) (hs : s.socket = some old) :
    (listenInit s).2 = [] := by
  unfold listenInit
  have hx : s.socket.isNone = false := by rw [hs]; rfl
  rw [hx]
  simp

theorem listen_ops_of_some (e : String) (i : Nat) (s : Svc) (old : Sock)
    (hs : s.socket = some old) : (listen e i s).2 = [] := by
  unfold listen
  split
  · rfl
  · rw [(listenAttach_fields _ _ _).2.2.2]
    exact listenInit_ops_of_some _ old hs

theorem initializeSocket_ops_shape (s : Svc) (old : Sock) (n : Nat)
    (hs : s.socket = some old) (hc : SockOp.create n ∈ (initializeSocket s).2) :
    (initializeSocket s).2 = [.removeAll old.sid, .close old.sid, .create n] := by
  unfold initializeSocket at hc ⊢
  by_cases h1 : (s.isInitializing ||
      (match s.socket with | some k => k.connected | none => false)) = true
  · rw [if_pos h1] at hc
    exact absurd hc (by simp)
  · rw [if_neg h1] at hc ⊢
    cases ht : s.auth.token with
    | none =>
      rw [ht] at hc
      exact absurd hc (by simp)
    | some tok =>
      rw [ht] at hc
      dsimp only at hc ⊢
      by_cases h2 : s.auth.expired = true
      · rw [if_pos h2] at hc
        exact absurd hc (by simp)
      · rw [if_neg h2] at hc ⊢
        unfold teardownSocket at hc ⊢
        have hx : ({ s with isInitializing := true } : Svc).socket = some old := hs
        rw [hx] at hc ⊢
        dsimp only at hc ⊢
        simp only [List.cons_append, List.nil_append] at hc ⊢
        simp only [List.mem_cons, List.not_mem_nil] at hc
        rcases hc with hc | hc | hc | hc
        · exact absurd hc (by simp)
        · exact absurd hc (by simp)
        · injection hc with hnx
          subst hnx
          rfl
        · exact absurd hc (by simp)

theorem reconnect_ops_shape (s : Svc) (old : Sock) (n : Nat)
    (hs : s.socket = some old) (hc : SockOp.create n ∈ (reconnect s).2.1) :
    (reconnect s).2.1 = [.removeAll old.sid, .close old.sid, .create n] := by
  unfold reconnect at hc ⊢
  by_cases h1 : (match s.socket with | some k => k.connected | none => false) = true
  · rw [if_pos h1] at hc
    exact absurd hc (by simp)
  · rw [if_neg h1] at hc ⊢
    cases ht : s.auth.token with
    | none =>
      rw [ht] at hc
      exact absurd hc (by simp)
    | some tok =>
      rw [ht] at hc
      dsimp only at hc ⊢
      by_cases h2 : s.auth.expired = true
      · rw [if_pos h2] at hc
        exact absurd hc (by simp)
      · rw [if_neg h2] at hc ⊢
        exact initializeSocket_ops_shape s old n hs hc

theorem teardownSocket_ops (x : Svc) :
    (teardownSocket x).2 = [] ∨
    ∃ m, (teardownSocket x).2 = [SockOp.removeAll m, SockOp.close m] := by
  unfold teardownSocket
  split
  · exact Or.inl rfl
  · exact Or.inr ⟨_, rfl⟩

theorem disconnect_ops (s : Svc) :
    (disconnect s).2 = [] ∨
    ∃ m, (disconnect s).2 = [SockOp.removeAll m, SockOp.close m] :=
  teardownSocket_ops _

theorem onDisconnectEvt_ops (reason : String) (s : Svc) :
    (onDisconnectEvt reason s).2 = [] ∨
    ∃ m, (onDisconnectEvt reason s).2 = [SockOp.close m] := by
  unfold onDisconnectEvt
  split
  · exact Or.inl rfl
  · dsimp only
    split <;> try split
    all_goals first
      | exact Or.inl rfl
      | exact Or.inr ⟨_, rfl⟩

theorem onConnectErrorEvt_ops (b : Bool) (s : Svc) :
    (onConnectErrorEvt b s).2 = [] ∨
    ∃ m, (onConnectErrorEvt b s).2 = [SockOp.close m] := by
  unfold onConnectErrorEvt
  split
  · exact Or.inl rfl
  · dsimp only
    split
    · exact Or.inr ⟨_, rfl⟩
    · exact Or.inl rfl

theorem stepFull_create_shape (a : Act) (s : Svc) (old : Sock) (n : Nat)
    (hs : s.socket = some old) (hc : SockOp.create n ∈ (stepFull a s).2) :
    (stepFull a s).2 = [.removeAll old.sid, .close old.sid, .create n] := by
  cases a with
  | listen e i =>
    have h0 : (stepFull (Act.listen e i) s).2 = (listen e i s).2 := rfl
    rw [h0] at hc ⊢
    rw [listen_ops_of_some e i s old hs] at hc
    exact absurd hc (by simp)
  | svcReconnect => exact reconnect_ops_shape s old n hs hc
  | svcDisconnect =>
    have h0 : (stepFull Act.svcDisconnect s).2 = (disconnect s).2 := rfl
    rw [h0] at hc
    rcases disconnect_ops s with h | ⟨m, h⟩ <;> rw [h] at hc <;>
      exact absurd hc (by simp)
  | connectEvt => exact absurd hc (by simp [stepFull])
  | disconnectEvt reason =>
    have h0 : (stepFull (Act.disconnectEvt reason) s).2 = (onDisconnectEvt reason s).2 := rfl
    rw [h0] at hc
    rcases onDisconnectEvt_ops reason s with h | ⟨m, h⟩ <;> rw [h] at hc <;>
      exact absurd hc (by simp)
  | connectErrorEvt b =>
    have h0 : (stepFull (Act.connectErrorEvt b) s).2 = (onConnectErrorEvt b s).2 := rfl
    rw [h0] at hc
    rcases onConnectErrorEvt_ops b s with h | ⟨m, h⟩ <;> rw [h] at hc <;>
      exact absurd hc (by simp)
  | reconnectAttemptEvt m => exact absurd hc (by simp [stepFull])
  | reconnectedEvt => exact absurd hc (by simp [stepFull])
  | pollTick => exact absurd hc (by simp [stepFull])
  | setAuth t e => exact absurd hc (by simp [stepFull])
  | message e p => exact absurd hc (by simp [stepFull])

end SocketModel

namespace SocketModel

/- ------------------------------------------------------------------ -/
/- Delivery dichotomy                                                  -/
/- ------------------------------------------------------------------ -/

theorem deliver_dichotomy (e p : String) (s : Svc) (h : RawOnce s) :
    deliverOutput e p s = [] ∨
    ∃ sid, deliverTargets e s = [sid] ∧ deliverOutput e p s = subjectEmission s p sid := by
  unfold deliverOutput deliverTargets
  cases hs : s.socket with
  | none => exact Or.inl rfl
  | some k =>
    dsimp only
    by_cases hcon : k.connected = true
    · rw [if_pos hcon]
      have h2 := h k hs e
      unfold countEv at h2
      cases hf : k.rawListeners.filter (fun pr => pr.1 = e) with
      | nil =>
        exact Or.inl rfl
      | cons x rest =>
        rw [hf] at h2
        cases rest with
        | nil =>
          refine Or.inr ⟨x.2, ?_, ?_⟩
          · rfl
          · simp
        | cons y rest2 =>
          exfalso
          simp at h2
    · rw [if_neg hcon]
      exact Or.inl rfl

theorem listen_fresh_subjects (e : String) (x : Nat) (s : Svc)
    (hm : CacheModel.mapGet s.eventSubjects e = none) :
    (step (.listen e x) s).subjects =
      s.subjects ++ [Subject.mk s.nextSubjectId false [x]] := by
  show (listen e x s).1.subjects = _
  unfold listen
  rw [hm]
  dsimp only
  rw [(listenAttach_fields _ _ _).1, (listenInit_fields _).1]
  rfl


end SocketModel

namespace SocketModel

/- ------------------------------------------------------------------ -/
/- Claim C5                                                            -/
/- ------------------------------------------------------------------ -/

/-- C5 counterexample: after listen(alert) (one subscriber), a connect, a
transport disconnect, a reconnect() — which tears the socket down and
creates a fresh one — and a successful connect of the new socket, the
subject for alert is still registered and open with its one subscriber
attached and the socket is connected, yet an inbound alert message is
delivered to nobody: the raw listener was not re-attached to the new
socket, refuting delivery exactly once to each attached subscriber. -/
theorem c5_single_listener_counterexample :
    (run c5Trace).eventSubjects = [("alert", 0)] ∧
    getSubj (run c5Trace) 0 = some ⟨0, false, [0]⟩ ∧
    ((run c5Trace).socket.map Sock.connected) = some true ∧
    deliverOutput "alert" "m" (run c5Trace) = [] := by
  refine ⟨by decide, by decide, by decide, by decide⟩

/-- C5 (amended): at most one raw listener per event name ever exists on
the current socket, over every execution; each inbound message on E is
either delivered exactly once to each currently attached subscription of
the alert subject — when the raw listener for E is present — or not
delivered at all (in particular after a socket re-initialization, which
does not re-attach listeners for event names that are already
registered); and in the spec scenario (three subscriptions before any
connection, then a connect) one message is delivered exactly once to each
of the three subscribers. -/
theorem c5_single_listener_amended :
    (∀ acts k e, (run acts).socket = some k → countEv e k.rawListeners ≤ 1) ∧
    (∀ acts e p, deliverOutput e p (run acts) = [] ∨
      ∃ sid, deliverTargets e (run acts) = [sid] ∧
        deliverOutput e p (run acts) = subjectEmission (run acts) p sid) ∧
    deliverOutput "alert" "m" (run c5ScenarioTrace) = [(0, "m"), (1, "m"), (2, "m")] := by
  refine ⟨?_, ?_, by decide⟩
  · intro acts k e hk
    exact rawOnce_run acts k hk e
  · intro acts e p
    exact deliver_dichotomy e p _ (rawOnce_run acts)

/-- Closed instance of the amended C5 theorem. -/
theorem c5_single_listener_amended_witness :
    countEv "alert" (Sock.mk 0 true [("alert", 0)] []).rawListeners ≤ 1 :=
  c5_single_listener_amended.1 c5ScenarioTrace (Sock.mk 0 true [("alert", 0)] [])
    "alert" (by decide)

/- ------------------------------------------------------------------ -/
/- Claim C6                                                            -/
/- ------------------------------------------------------------------ -/

/-- C6: over every execution at most one physical socket object is live
(created and not torn down), and whenever a step creates a new socket
while a socket object exists, the very operation sequence of that step is
removeAllListeners on the old object, then disconnect of the old object,
then the creation — full teardown strictly before the new object
exists. -/
theorem c6_single_connection :
    (∀ acts, (run acts).live.length ≤ 1) ∧
    (∀ acts a old n, (run acts).socket = some old →
      SockOp.create n ∈ (stepFull a (run acts)).2 →
      (stepFull a (run acts)).2 =
        [SockOp.removeAll old.sid, SockOp.close old.sid, SockOp.create n]) := by
  constructor
  · intro acts
    have h := liveInv_run acts
    unfold LiveInv at h
    cases hs : (run acts).socket with
    | none =>
      rw [hs] at h
      rw [h]
      simp
    | some k =>
      rw [hs] at h
      rcases h with h | h <;> rw [h] <;> simp
  · intro acts a old n hs hc
    exact stepFull_create_shape a (run acts) old n hs hc

/-- Closed instance of the C6 theorem: reconnect() after a transport drop
tears socket 0 down completely before creating socket 1. -/
theorem c6_single_connection_witness :
    (run c6Trace).live.length ≤ 1 ∧
    (stepFull .svcReconnect (run c6Trace)).2 =
      [SockOp.removeAll 0, SockOp.close 0, SockOp.create 1] := by
  constructor
  · exact c6_single_connection.1 c6Trace
  · exact c6_single_connection.2 c6Trace .svcReconnect (Sock.mk 0 false [("x", 0)] []) 1
      (by decide) (by decide)

/- ------------------------------------------------------------------ -/
/- Claim C7                                                            -/
/- ------------------------------------------------------------------ -/

/-- C7 counterexample: with a credential that is present but expired,
reconnect() makes no connection attempt (no socket operation, state
unchanged) — but nothing is surfaced to the caller either: it only logs a
console warning and returns normally, with no error; there is no
synchronous rejection distinct from a network error, refuting that the
precondition failure is surfaced to the caller. -/
theorem c7_connect_precondition_counterexample :
    (reconnect (run [.setAuth (some "tok") true])).1 = run [.setAuth (some "tok") true] ∧
    (reconnect (run [.setAuth (some "tok") true])).2.1 = [] ∧
    (reconnect (run [.setAuth (some "tok") true])).2.2.1 ≠ [] ∧
    (reconnect (run [.setAuth (some "tok") true])).2.2.2 = none := by
  refine ⟨by decide, by decide, by decide, by decide⟩

/-- C7 (amended): reconnect() never surfaces an error to its caller (the
source has no throw or rejection — the error component is none in every
branch); it is a no-op when the socket is connected and when an
initialization is already running; and when the socket is not connected
and the token is missing or expired it refuses locally and synchronously:
the state is unchanged, no socket operation is performed, and the only
effect is the console warning. -/
theorem c7_connect_precondition_amended (s : Svc) :
    (reconnect s).2.2.2 = none ∧
    (∀ k, s.socket = some k → k.connected = true → reconnect s = (s, [], [], none)) ∧
    ((match s.socket with | some k => k.connected | none => false) = false →
      (s.auth.token = none ∨ s.auth.expired = true) →
      (reconnect s).1 = s ∧ (reconnect s).2.1 = [] ∧
        (reconnect s).2.2.1 =
          ["SocketService: Cannot reconnect - token missing or expired"]) ∧
    (s.isInitializing = true →
      (reconnect s).1 = s ∧ (reconnect s).2.1 = []) := by
  refine ⟨?_, ?_, ?_, ?_⟩
  · unfold reconnect
    split
    · rfl
    · split
      · rfl
      · split
        · rfl
        · rfl
  · intro k hk hcon
    have hg : (match s.socket with | some k2 => k2.connected | none => false) = true := by
      rw [hk]
      exact hcon
    unfold reconnect
    rw [if_pos hg]
  · intro hg hbad
    have hg2 : ¬ ((match s.socket with | some k => k.connected | none => false) = true) := by
      rw [hg]
      simp
    unfold reconnect
    rw [if_neg hg2]
    rcases hbad with hb | hb
    · rw [hb]
      exact ⟨rfl, rfl, rfl⟩
    · cases htok : s.auth.token with
      | none => exact ⟨rfl, rfl, rfl⟩
      | some t =>
        dsimp only
        rw [if_pos hb]
        exact ⟨rfl, rfl, rfl⟩
  · intro hinit
    have hcond : (s.isInitializing ||
        (match s.socket with | some k => k.connected | none => false)) = true := by
      rw [hinit]
      simp
    unfold reconnect
    split
    · exact ⟨rfl, rfl⟩
    · split
      · exact ⟨rfl, rfl⟩
      · split
        · exact ⟨rfl, rfl⟩
        · constructor
          · show (initializeSocket s).1 = s
            unfold initializeSocket
            rw [if_pos hcond]
          · show (initializeSocket s).2 = []
            unfold initializeSocket
            rw [if_pos hcond]

/-- Closed instance of the amended C7 theorem. -/
theorem c7_connect_precondition_amended_witness :
    (reconnect (run [.setAuth (some "tok") true])).2.2.2 = none ∧
    (reconnect (run [.setAuth (some "tok") true])).1 = run [.setAuth (some "tok") true] := by
  constructor
  · exact (c7_connect_precondition_amended _).1
  · exact ((c7_connect_precondition_amended _).2.2.1 (by decide) (Or.inr (by decide))).1

/- ------------------------------------------------------------------ -/
/- Claim C10                                                           -/
/- ------------------------------------------------------------------ -/

/-- C10: after disconnect(), every subject that existed before (id below
the pre-disconnect fresh counter) emits nothing to its subscribers ever
again, no matter what happens afterwards — including reconnection and new
listens — and a subsequent first listen for an event name creates a fresh
subject, with a fresh id, to which only the new subscription is
attached. -/
theorem c10_disconnect_completes (pre post : List Act) (p : String) (sid : Nat)
    (hsid : sid < (run pre).nextSubjectId) :
    subjectEmission (runFrom (step .svcDisconnect (run pre)) post) p sid = [] ∧
    sid < (runFrom (step .svcDisconnect (run pre)) post).nextSubjectId ∧
    (∀ e x, CacheModel.mapGet
        (runFrom (step .svcDisconnect (run pre)) post).eventSubjects e = none →
      (step (.listen e x) (runFrom (step .svcDisconnect (run pre)) post)).subjects =
        (runFrom (step .svcDisconnect (run pre)) post).subjects ++
          [Subject.mk (runFrom (step .svcDisconnect (run pre)) post).nextSubjectId
            false [x]]) := by
  have hinv := subjInvs_run pre
  have hmid : ClosedBelow (run pre).nextSubjectId (step .svcDisconnect (run pre)) := by
    show ClosedBelow _ (disconnect (run pre)).1
    intro sub hsub _
    exact allClosed_disconnect _ hinv.2 sub hsub
  have hmidn : (run pre).nextSubjectId ≤ (step .svcDisconnect (run pre)).nextSubjectId := by
    show _ ≤ (disconnect (run pre)).1.nextSubjectId
    exact le_of_eq (disconnect_fields _).2.2.1.symm
  obtain ⟨hcb, hn⟩ := closedBelow_runFrom _ _ post hmid hmidn
  refine ⟨?_, Nat.lt_of_lt_of_le hsid hn, ?_⟩
  · unfold subjectEmission
    cases hg : getSubj (runFrom (step .svcDisconnect (run pre)) post) sid with
    | none => rfl
    | some sub =>
      have hmem : sub ∈ (runFrom (step .svcDisconnect (run pre)) post).subjects :=
        List.mem_of_find?_eq_some hg
      have hid : sub.id = sid := by
        have hp := List.find?_some hg
        simpa using hp
      have hclosed := hcb sub hmem (by rw [hid]; exact hsid)
      dsimp only
      rw [hclosed]
      simp
  · intro e x hmap
    exact listen_fresh_subjects e x _ hmap

/-- Closed instance of the C10 theorem: after disconnect(), a reconnect, a
fresh listen on the same event and a new connect, the pre-disconnect
alert subject (id 0) emits nothing, and a first listen for another event
appends exactly one fresh subject holding only the new subscription. -/
theorem c10_disconnect_completes_witness :
    subjectEmission (runFrom (step .svcDisconnect (run c10Pre)) c10Post) "m" 0 = [] ∧
    (step (.listen "other" 7) (runFrom (step .svcDisconnect (run c10Pre)) c10Post)).subjects =
      (runFrom (step .svcDisconnect (run c10Pre)) c10Post).subjects ++
        [Subject.mk (runFrom (step .svcDisconnect (run c10Pre)) c10Post).nextSubjectId
          false [7]] := by
  refine ⟨(c10_disconnect_completes c10Pre c10Post "m" 0 (by decide)).1,
    (c10_disconnect_completes c10Pre c10Post "m" 0 (by decide)).2.2 "other" 7 (by decide)⟩

end SocketModel
